import Mathlib

/-!
Verification of `pyxem/generators/library_generator.py` (pycrystem).

The two generator classes are embedded shallowly:

* `DiffractionLibraryGenerator.get_diffraction_library` builds a two-level
  mapping phase key → orientation triple → simulation record, mutating the
  structure objects in place as it rotates their lattices.
* `VectorLibraryGenerator.get_vector_library` builds, per phase, the array of
  all index pairs (i < j) of the reciprocal-lattice points inside a sphere.

External collaborators (the diffraction calculator, `transforms3d.euler2mat`,
`diffpy` lattices, `numpy` square root, and the geometry helpers
`get_points_in_sphere` / `get_angle_cartesian`, which live outside
`generators/library_generator.py`) are modelled as abstract parameters or
opaque encodings, since this file's code never inspects their internals.
Python dictionaries are modelled as association lists with insertion-order
semantics (`dictInsert` overwrites in place, appends fresh keys at the end).
Numbers are rationals; `np.rint` is embedded exactly (round half to even).
-/

namespace Pyxem

/-- Euler angle triple (degrees, Z-X-Z intrinsic) used as an orientation key. -/
abbrev Orientation := ℚ × ℚ × ℚ

/-- Modelled from the spec: the 3 x 3 rotation matrix produced by
`transforms3d.euler.euler2mat` (convention rzxz) at `np.deg2rad` of the three
degree angles.  The generator never inspects the matrix entries, so the matrix
is represented opaquely by the defining degree angles. -/
structure RotMat where
  angles : Orientation
deriving DecidableEq

/-- Composition `euler2mat (deg2rad orientation, rzxz)` as it appears in the
orientation loop, with the matrix kept opaque. -/
def rotationOf (o : Orientation) : RotMat := ⟨o⟩

/-- Modelled from the spec: a `diffpy.structure.lattice.Lattice` value — six
scalar cell parameters plus a base-rotation matrix. -/
structure Lattice where
  a : ℚ
  b : ℚ
  c : ℚ
  alpha : ℚ
  beta : ℚ
  gamma : ℚ
  baserot : RotMat
deriving DecidableEq

/-- The six cell parameters of a lattice (its shape, independent of rotation). -/
def cellParams (l : Lattice) : ℚ × ℚ × ℚ × ℚ × ℚ × ℚ :=
  (l.a, l.b, l.c, l.alpha, l.beta, l.gamma)

/-- Modelled from the spec: a `diffpy` crystal structure, reduced to the state
the generator reads and writes — its lattice.  Structures are mutable in the
source; mutation is embedded by explicit state passing. -/
structure Structure where
  lattice : Lattice
deriving DecidableEq

/-- In-place lattice reassignment `structure.placeInLattice(latt_rot)`. -/
def Structure.placeInLattice (s : Structure) (l : Lattice) : Structure :=
  { s with lattice := l }

/-- Modelled from the spec: the `StructureLibrary` input container
(`pyxem.libraries.structure_library`, not under `src/`): an ordered mapping
phase key → (representative structure, orientation list), carrying the
auxiliary parallel attributes `indentifiers` (the source's misspelling of
`identifiers`) and `structures`.  Entries own their structures (no aliasing
across phases), matching the spec's data model. -/
structure StructureLibrary where
  struct_lib : List (String × Structure × List Orientation)
  indentifiers : List String
  structures : List Structure
deriving DecidableEq

/-- Modelled from the spec: the opaque simulation result returned by the
external diffraction calculator.  Its settable `calibration` attribute is a
field; `calibrated_coordinates` (an N x 3 array whose first two columns are
detector-plane coordinates) is a function of the calibration that was set. -/
structure SimData where
  calibration : Option ℚ
  intensities : List ℚ
  calibrated_coordinates : ℚ → List (ℚ × ℚ × ℚ)

instance : Inhabited SimData := ⟨⟨none, [], fun _ => []⟩⟩

/-- One retained entry of the diffraction library: the record
`{Sim, intensities, pixel_coords, pattern_norm}` built in the loop body. -/
structure SimRecord where
  Sim : SimData
  intensities : List ℚ
  pixel_coords : List (ℤ × ℤ)
  pattern_norm : ℚ

/-- Python dictionary keys, in insertion order. -/
def dictKeys {α β : Type} (d : List (α × β)) : List α := d.map Prod.fst

/-- Python dictionary lookup `d[k]` (as an option). -/
def dictGet? {α β : Type} [DecidableEq α] (d : List (α × β)) (k : α) : Option β :=
  (d.find? (fun p => decide (p.1 = k))).map Prod.snd

/-- Python dictionary assignment `d[k] = v`: overwrite in place if the key is
present, otherwise append at the end (insertion order preserved). -/
def dictInsert {α β : Type} [DecidableEq α] (d : List (α × β)) (k : α) (v : β) :
    List (α × β) :=
  if k ∈ dictKeys d then d.map (fun p => if p.1 = k then (k, v) else p)
  else d ++ [(k, v)]

/-- Embedding of `np.rint(...).astype(int)`: round to the nearest integer with
ties to even (numpy's rounding), then cast — the cast is the identity on the
already-integral rounded value. -/
def rint (q : ℚ) : ℤ :=
  let f : ℤ := ⌊q⌋
  let r : ℚ := q - f
  if r < 1/2 then f
  else if (1 : ℚ)/2 < r then f + 1
  else if f % 2 = 0 then f else f + 1

/-- Embedding of `np.dot` on two vectors of the same length. -/
def dot (xs ys : List ℚ) : ℚ := (List.zipWith (fun x y => x * y) xs ys).sum

/-- One phase's sub-mapping `phase_diffraction_library`. -/
abbrev PhaseDict := List (Orientation × SimRecord)

/-- The top-level mapping of the diffraction library. -/
abbrev DiffDict := List (String × PhaseDict)

/-- The `DiffractionLibrary` output container: the two-level mapping plus the
`identifiers` and `structures` attributes assigned at the end of the build. -/
structure DiffractionLibrary where
  dict : DiffDict
  identifiers : List String
  structures : List Structure

instance : Inhabited DiffractionLibrary := ⟨⟨[], [], []⟩⟩

instance : Inhabited StructureLibrary := ⟨⟨[], [], []⟩⟩

/-- The record body of the orientation loop: set `data.calibration`, read the
first two columns of the calibrated coordinates, shift by `half_shape` and
round with `np.rint` into integer pixel coordinates, and store the record with
`pattern_norm = np.sqrt(np.dot(intensities, intensities))`.  The external
`np.sqrt` is abstracted as `sqrt0`. -/
def mkRecord (sqrt0 : ℚ → ℚ) (calibration : ℚ) (half_shape : ℚ × ℚ)
    (data0 : SimData) : SimRecord :=
  let data : SimData := { data0 with calibration := some calibration }
  let pattern_intensities := data.intensities
  let pixel_coordinates :=
    (data.calibrated_coordinates calibration).map
      (fun v => (rint (v.1 + half_shape.1), rint (v.2.1 + half_shape.2)))
  { Sim := data
  , intensities := pattern_intensities
  , pixel_coords := pixel_coordinates
  , pattern_norm := sqrt0 (dot pattern_intensities pattern_intensities) }

/-- The structure placed in the lattice built from six fixed cell parameters
base-rotated by orientation `o` (the loop's `latt_rot` applied by
`placeInLattice`; the result does not depend on the previous lattice). -/
def rotS (a b c alpha beta gamma : ℚ) (o : Orientation) : Structure :=
  ⟨⟨a, b, c, alpha, beta, gamma, rotationOf o⟩⟩

/-- The rotated structure expressed from a phase's structure: same six cell
parameters, base rotation from `o`. -/
def rotatedStructure (s : Structure) (o : Orientation) : Structure :=
  rotS s.lattice.a s.lattice.b s.lattice.c s.lattice.alpha s.lattice.beta
    s.lattice.gamma o

section DiffractionGenerator

variable {ε : Type}
variable (diffractor : Structure → ℚ → Bool → Except ε SimData)
variable (sqrt0 : ℚ → ℚ)
variable (calibration reciprocal_radius : ℚ)
variable (half_shape : ℚ × ℚ)
variable (with_direct_beam : Bool)

/-- The inner orientation loop of `get_diffraction_library` for one phase:
state is the mutated structure, the phase sub-dictionary and the output
dictionary; a simulator failure aborts with that error. -/
def processOrientations (key : String) (a b c alpha beta gamma : ℚ) :
    List Orientation → Structure → PhaseDict → DiffDict →
      Except ε (Structure × PhaseDict × DiffDict)
  | [], st, pd, lib => Except.ok (st, pd, lib)
  | o :: os, st, pd, lib =>
    let matrix := rotationOf o
    let latt_rot : Lattice := ⟨a, b, c, alpha, beta, gamma, matrix⟩
    let st1 := st.placeInLattice latt_rot
    match diffractor st1 reciprocal_radius with_direct_beam with
    | Except.error e => Except.error e
    | Except.ok data =>
      let pattern_intensities := data.intensities
      if pattern_intensities.length > 0 then
        let pd1 := dictInsert pd o (mkRecord sqrt0 calibration half_shape data)
        processOrientations key a b c alpha beta gamma os st1 pd1
          (dictInsert lib key pd1)
      else
        processOrientations key a b c alpha beta gamma os st1 pd lib

/-- The outer phase loop: per phase, read the six cell parameters once, run
the orientation loop, and keep the mutated structure in the entry. -/
def processPhases :
    List (String × Structure × List Orientation) → DiffDict →
      Except ε (List (String × Structure × List Orientation) × DiffDict)
  | [], lib => Except.ok ([], lib)
  | (key, st, orientations) :: rest, lib =>
    let a := st.lattice.a
    let b := st.lattice.b
    let c := st.lattice.c
    let alpha := st.lattice.alpha
    let beta := st.lattice.beta
    let gamma := st.lattice.gamma
    match processOrientations diffractor sqrt0 calibration reciprocal_radius
        half_shape with_direct_beam key a b c alpha beta gamma orientations st
        [] lib with
    | Except.error e => Except.error e
    | Except.ok (st1, _, lib1) =>
      match processPhases rest lib1 with
      | Except.error e => Except.error e
      | Except.ok (rest1, lib2) => Except.ok ((key, st1, orientations) :: rest1, lib2)

end DiffractionGenerator

/-- Embedding of `DiffractionLibraryGenerator.get_diffraction_library`.  The
external calculator `calculate_ed_data` is the abstract fallible function
`diffractor`; the returned pair is (the built library, the structure library
whose structure objects were mutated in place by the loop).  On a simulator
failure the whole call returns that error and nothing else. -/
def get_diffraction_library {ε : Type}
    (diffractor : Structure → ℚ → Bool → Except ε SimData) (sqrt0 : ℚ → ℚ)
    (structure_library : StructureLibrary)
    (calibration reciprocal_radius : ℚ) (half_shape : ℚ × ℚ)
    (with_direct_beam : Bool) :
    Except ε (DiffractionLibrary × StructureLibrary) :=
  match processPhases diffractor sqrt0 calibration reciprocal_radius half_shape
      with_direct_beam structure_library.struct_lib [] with
  | Except.error e => Except.error e
  | Except.ok (entries1, libdict) =>
    Except.ok
      ({ dict := libdict
       , identifiers := structure_library.indentifiers
       , structures := structure_library.structures },
       { structure_library with struct_lib := entries1 })

/-- Whether an `Except` result is a success. -/
def isOkE {ε α : Type} : Except ε α → Bool
  | Except.ok _ => true
  | Except.error _ => false

/-- The library component of a successful build (junk default on failure). -/
def okLib {ε : Type} (x : Except ε (DiffractionLibrary × StructureLibrary)) :
    DiffractionLibrary :=
  match x with
  | Except.ok p => p.1
  | Except.error _ => default

/-- The post-call structure library of a successful build. -/
def okSl {ε : Type} (x : Except ε (DiffractionLibrary × StructureLibrary)) :
    StructureLibrary :=
  match x with
  | Except.ok p => p.2
  | Except.error _ => default

/-- A phase's sub-mapping in the output library (empty if the phase is absent). -/
def subdict (dl : DiffractionLibrary) (k : String) : PhaseDict :=
  (dictGet? dl.dict k).getD []

section RunHelpers

variable {ε : Type}
variable (diffractor : Structure → ℚ → Bool → Except ε SimData)
variable (sqrt0 : ℚ → ℚ)
variable (calibration reciprocal_radius : ℚ)
variable (half_shape : ℚ × ℚ)
variable (with_direct_beam : Bool)

/-- The simulator output for phase structure `s` at orientation `o` (junk
default if that call fails; under a successful build every call succeeds, so
the default is never what the build stored). -/
def simValS (s : Structure) (o : Orientation) : SimData :=
  match diffractor (rotatedStructure s o) reciprocal_radius with_direct_beam with
  | Except.ok d => d
  | Except.error _ => default

/-- Whether the simulator call for `(s, o)` succeeds. -/
def simOk (s : Structure) (o : Orientation) : Bool :=
  match diffractor (rotatedStructure s o) reciprocal_radius with_direct_beam with
  | Except.ok _ => true
  | Except.error _ => false

/-- Whether orientation `o` of phase structure `s` is retained: the simulated
intensities vector is non-empty. -/
def retainedS (s : Structure) (o : Orientation) : Bool :=
  decide
    ((simValS diffractor reciprocal_radius with_direct_beam s o).intensities.length > 0)

/-- Closed form of one phase's sub-dictionary: fold Python dict insertion of
the retained records over the orientation list. -/
def phaseFold (s : Structure) (os : List Orientation) (pd : PhaseDict) : PhaseDict :=
  os.foldl (fun pd o =>
    if retainedS diffractor reciprocal_radius with_direct_beam s o then
      dictInsert pd o
        (mkRecord sqrt0 calibration half_shape
          (simValS diffractor reciprocal_radius with_direct_beam s o))
    else pd) pd

/-- Whether a phase entry retains at least one orientation. -/
def entryAny (e : String × Structure × List Orientation) : Bool :=
  e.2.2.any (fun o => retainedS diffractor reciprocal_radius with_direct_beam e.2.1 o)

/-- The final sub-dictionary of a phase entry. -/
def entryPd (e : String × Structure × List Orientation) : PhaseDict :=
  phaseFold diffractor sqrt0 calibration reciprocal_radius half_shape
    with_direct_beam e.2.1 e.2.2 []

/-- Closed form of the outer dictionary: each phase that retains at least one
orientation contributes its sub-dictionary under its key. -/
def phasesFold (entries : List (String × Structure × List Orientation))
    (lib : DiffDict) : DiffDict :=
  entries.foldl (fun lib e =>
    if entryAny diffractor reciprocal_radius with_direct_beam e then
      dictInsert lib e.1
        (entryPd diffractor sqrt0 calibration reciprocal_radius half_shape
          with_direct_beam e)
    else lib) lib

end RunHelpers

/-- A phase entry after its loop ran: the structure holds the lattice built
for the last orientation of the list (unchanged if the list is empty). -/
def entryFinal (e : String × Structure × List Orientation) :
    String × Structure × List Orientation :=
  (e.1, e.2.2.foldl (fun _ o => rotatedStructure e.2.1 o) e.2.1, e.2.2)

/-- Cartesian coordinate triple. -/
abbrev Vec3 := ℚ × ℚ × ℚ

/-- Modelled from the spec: one enumerated reciprocal-lattice point of the
`get_points_in_sphere` helper (`pyxem.utils.sim_utils`, not under `src/`):
Miller-index triple, cartesian coordinates and distance from the origin.  The
helper returns three parallel sequences of equal length and ordering, bundled
here as one sequence of points. -/
structure SpherePoint where
  hkl : ℤ × ℤ × ℤ
  coord : Vec3
  dist : ℚ
deriving DecidableEq, Inhabited

/-- One row `np.array([hkl1, hkl2, len1, len2, angle])` of a phase's
vector-pair array. -/
structure VecRecord where
  hkl1 : ℤ × ℤ × ℤ
  hkl2 : ℤ × ℤ × ℤ
  len1 : ℚ
  len2 : ℚ
  angle : ℚ
deriving DecidableEq

/-- The `DiffractionVectorLibrary` output container. -/
structure DiffractionVectorLibrary where
  dict : List (String × List VecRecord)
  identifiers : List String
  structures : List Structure
deriving DecidableEq

/-- Embedding of `itertools.combinations(np.arange(len(indices)), 2)`: index
pairs `(i, j)` with `i < j < n`, in lexicographic order by index. -/
def combinations2 (n : Nat) : List (Nat × Nat) :=
  ((List.range n).map
    (fun i => ((List.range n).drop (i + 1)).map (fun j => (i, j)))).flatten

/-- The record built for index pair `(i, j)` of the enumerated points:
`(hkl_i, hkl_j, dist_i, dist_j, angle(coord_i, coord_j))`.  Both indices are
always within bounds when called from the pair loop. -/
def pairRecord (get_angle_cartesian : Vec3 → Vec3 → ℚ) (pts : List SpherePoint)
    (i j : Nat) : VecRecord :=
  { hkl1 := (pts.getD i default).hkl
  , hkl2 := (pts.getD j default).hkl
  , len1 := (pts.getD i default).dist
  , len2 := (pts.getD j default).dist
  , angle := get_angle_cartesian (pts.getD i default).coord (pts.getD j default).coord }

/-- Embedding of `VectorLibraryGenerator.get_vector_library`.  `reciprocal`
models `diffpy`'s `Lattice.reciprocal()`, and `get_points_in_sphere` /
`get_angle_cartesian` model the geometry helpers — all external to the
embedded source file. -/
def get_vector_library (reciprocal : Lattice → Lattice)
    (get_points_in_sphere : Lattice → ℚ → List SpherePoint)
    (get_angle_cartesian : Vec3 → Vec3 → ℚ)
    (structure_library : StructureLibrary) (reciprocal_radius : ℚ) :
    DiffractionVectorLibrary :=
  let lib := structure_library.struct_lib.foldl (fun vlib entry =>
    let latt := entry.2.1.lattice
    let recip_latt := reciprocal latt
    let pts := get_points_in_sphere recip_latt reciprocal_radius
    let phase_vectors := (combinations2 pts.length).map
      (fun ij => pairRecord get_angle_cartesian pts ij.1 ij.2)
    dictInsert vlib entry.1 phase_vectors) []
  { dict := lib
  , identifiers := structure_library.indentifiers
  , structures := structure_library.structures }

/-- The vector-pair array one phase entry contributes to the vector library. -/
def vval (reciprocal : Lattice → Lattice)
    (get_points_in_sphere : Lattice → ℚ → List SpherePoint)
    (get_angle_cartesian : Vec3 → Vec3 → ℚ) (reciprocal_radius : ℚ)
    (e : String × Structure × List Orientation) : List VecRecord :=
  (combinations2 (get_points_in_sphere (reciprocal e.2.1.lattice)
      reciprocal_radius).length).map
    (fun ij =>
      pairRecord get_angle_cartesian
        (get_points_in_sphere (reciprocal e.2.1.lattice) reciprocal_radius)
        ij.1 ij.2)

/-- Example simulation output used by the concrete test scenarios below. -/
def exData : SimData :=
  ⟨none, [1, 2], fun cal => [(cal, 3/2, 0), (-2, -2, 1)]⟩

/-- Cubic example structure (phase A of the scenarios). -/
def exStruct : Structure := ⟨⟨4, 4, 4, 90, 90, 90, rotationOf (0, 0, 0)⟩⟩

/-- Second example structure (phase B of the scenarios). -/
def exStructB : Structure := ⟨⟨3, 3, 5, 90, 90, 120, rotationOf (0, 0, 0)⟩⟩

/-- Deterministic example simulator: yields two reflections except for
orientation (10, 0, 0), where the pattern is empty. -/
def exDiffractor : Structure → ℚ → Bool → Except Nat SimData :=
  fun s _ _ =>
    if s.lattice.baserot = rotationOf (10, 0, 0) then Except.ok default
    else Except.ok exData

/-- Example simulator that fails at orientation (10, 0, 0). -/
def exFailD : Structure → ℚ → Bool → Except Nat SimData :=
  fun s _ _ =>
    if s.lattice.baserot = rotationOf (10, 0, 0) then Except.error 7
    else Except.ok exData

/-- Example structure library: phase A with a duplicated orientation, phase B
whose only orientation simulates to an empty pattern. -/
def exSl : StructureLibrary :=
  ⟨[("A", exStruct, [(0, 0, 0), (10, 0, 0), (0, 0, 0)]),
    ("B", exStructB, [(10, 0, 0)])],
   ["A", "B"], [exStruct, exStructB]⟩

/-- Stand-in square root for the scenarios. -/
def exSqrt : ℚ → ℚ := fun q => q

/-- Three example reciprocal-lattice points. -/
def exPts : List SpherePoint :=
  [⟨(1, 0, 0), (1, 0, 0), 1⟩, ⟨(0, 1, 0), (0, 1, 0), 1⟩, ⟨(0, 0, 1), (0, 0, 1), 1⟩]

/-- Example points-in-sphere helper: three points for the cubic lattice of
phase A, none for phase B. -/
def exGps : Lattice → ℚ → List SpherePoint :=
  fun l _ => if l.a = 4 then exPts else []

/-- Example cartesian angle helper. -/
def exAngle : Vec3 → Vec3 → ℚ :=
  fun v w => v.1 * w.1 + v.2.1 * w.2.1

/-- Example reciprocal-lattice operation. -/
def exRecip : Lattice → Lattice := fun l => l

section DictLemmas

variable {α β : Type} [DecidableEq α]

theorem find?_map_overwrite (d : List (α × β)) (k : α) (v : β) :
    (d.map (fun p => if p.1 = k then (k, v) else p)).find?
        (fun p => decide (p.1 = k)) =
      ((d.find? (fun p => decide (p.1 = k))).map (fun _ => (k, v))) := by
  induction d with
  | nil => rfl
  | cons hd tl ih =>
    rw [List.map_cons]
    by_cases h : hd.1 = k
    · rw [if_pos h, List.find?_cons_of_pos _ (by simp),
        List.find?_cons_of_pos _ (by simp [h])]
      rfl
    · rw [if_neg h, List.find?_cons_of_neg _ (by simp [h]),
        List.find?_cons_of_neg _ (by simp [h]), ih]

theorem find?_map_other (d : List (α × β)) (k k' : α) (v : β) (hne : k' ≠ k) :
    (d.map (fun p => if p.1 = k then (k, v) else p)).find?
        (fun p => decide (p.1 = k')) =
      d.find? (fun p => decide (p.1 = k')) := by
  induction d with
  | nil => rfl
  | cons hd tl ih =>
    rw [List.map_cons]
    by_cases h : hd.1 = k
    · have h2 : ¬ hd.1 = k' := by rw [h]; exact fun hkk => hne hkk.symm
      rw [if_pos h, List.find?_cons_of_neg _ (by simp; exact fun hkk => hne hkk.symm),
        List.find?_cons_of_neg _ (by simp [h2]), ih]
    · rw [if_neg h]
      by_cases h' : hd.1 = k'
      · rw [List.find?_cons_of_pos _ (by simp [h']), List.find?_cons_of_pos _ (by simp [h'])]
      · rw [List.find?_cons_of_neg _ (by simp [h']), List.find?_cons_of_neg _ (by simp [h']), ih]

theorem find?_key_eq_none (d : List (α × β)) (k : α) (h : k ∉ dictKeys d) :
    d.find? (fun p => decide (p.1 = k)) = none := by
  rw [List.find?_eq_none]
  intro p hp
  simp only [decide_eq_true_eq]
  intro hpk
  exact h (hpk ▸ List.mem_map_of_mem Prod.fst hp)

theorem find?_key_isSome (d : List (α × β)) (k : α) (h : k ∈ dictKeys d) :
    (d.find? (fun p => decide (p.1 = k))).isSome = true := by
  obtain ⟨p, hp, hp1⟩ := List.mem_map.mp h
  rw [List.find?_isSome]
  exact ⟨p, hp, by simp [hp1]⟩

theorem dictGet?_dictInsert (d : List (α × β)) (k k' : α) (v : β) :
    dictGet? (dictInsert d k v) k' = if k' = k then some v else dictGet? d k' := by
  unfold dictInsert
  by_cases hk : k ∈ dictKeys d
  · rw [if_pos hk]
    by_cases hkk : k' = k
    · subst hkk
      unfold dictGet?
      rw [find?_map_overwrite]
      have h1 := find?_key_isSome d k' hk
      cases hfind : d.find? (fun p => decide (p.1 = k')) with
      | none => rw [hfind] at h1; simp at h1
      | some p => simp
    · unfold dictGet?
      rw [find?_map_other d k k' v hkk]
      simp [hkk]
  · rw [if_neg hk]
    unfold dictGet?
    rw [List.find?_append]
    by_cases hkk : k' = k
    · subst hkk
      rw [find?_key_eq_none d k' hk]
      rw [List.find?_cons_of_pos _ (by simp)]
      simp
    · have h2 : List.find? (fun p => decide (p.1 = k')) [(k, v)] = none := by
        rw [List.find?_cons_of_neg _ (by simp; exact fun h => hkk h.symm)]
        rfl
      rw [h2, Option.or_none]
      simp [hkk]

theorem dictGet?_eq_none_iff (d : List (α × β)) (k : α) :
    dictGet? d k = none ↔ k ∉ dictKeys d := by
  constructor
  · intro h hk
    unfold dictGet? at h
    obtain ⟨p, hp, hp1⟩ := List.mem_map.mp hk
    cases hfind : d.find? (fun p => decide (p.1 = k)) with
    | none =>
      rw [List.find?_eq_none] at hfind
      exact hfind p hp (by simp [hp1])
    | some q => rw [hfind] at h; simp at h
  · intro h
    unfold dictGet?
    rw [find?_key_eq_none d k h]
    rfl

theorem mem_dictKeys_iff_isSome (d : List (α × β)) (k : α) :
    k ∈ dictKeys d ↔ (dictGet? d k).isSome = true := by
  constructor
  · intro h
    have h1 := find?_key_isSome d k h
    unfold dictGet?
    cases hfind : d.find? (fun p => decide (p.1 = k)) with
    | none => rw [hfind] at h1; simp at h1
    | some p => rfl
  · intro h
    by_contra hk
    rw [(dictGet?_eq_none_iff d k).mpr hk] at h
    simp at h

theorem dictKeys_dictInsert (d : List (α × β)) (k : α) (v : β) :
    dictKeys (dictInsert d k v) =
      if k ∈ dictKeys d then dictKeys d else dictKeys d ++ [k] := by
  by_cases hk : k ∈ dictKeys d
  · rw [if_pos hk]
    unfold dictInsert
    rw [if_pos hk]
    unfold dictKeys
    rw [List.map_map]
    apply List.map_congr_left
    intro p _
    by_cases hp : p.1 = k
    · simp [Function.comp, hp]
    · simp [Function.comp, hp]
  · rw [if_neg hk]
    unfold dictInsert
    rw [if_neg hk]
    unfold dictKeys
    rw [List.map_append]
    rfl

theorem mem_dictKeys_dictInsert (d : List (α × β)) (k k' : α) (v : β) :
    k' ∈ dictKeys (dictInsert d k v) ↔ k' = k ∨ k' ∈ dictKeys d := by
  rw [dictKeys_dictInsert]
  by_cases hk : k ∈ dictKeys d
  · simp only [hk, if_true]
    constructor
    · exact Or.inr
    · rintro (rfl | h)
      · exact hk
      · exact h
  · simp [hk, or_comm]

theorem dictKeys_nodup_dictInsert (d : List (α × β)) (k : α) (v : β)
    (h : (dictKeys d).Nodup) : (dictKeys (dictInsert d k v)).Nodup := by
  rw [dictKeys_dictInsert]
  by_cases hk : k ∈ dictKeys d
  · simpa [hk] using h
  · simp only [hk, if_false]
    simpa [List.nodup_append] using ⟨h, fun hmem => hk hmem⟩

theorem dictInsert_dictInsert_same (d : List (α × β)) (k : α) (v w : β) :
    dictInsert (dictInsert d k v) k w = dictInsert d k w := by
  have hmem : k ∈ dictKeys (dictInsert d k v) := by
    rw [mem_dictKeys_dictInsert]; exact Or.inl rfl
  unfold dictInsert
  rw [if_pos (by simpa [dictInsert] using hmem)]
  by_cases hk : k ∈ dictKeys d
  · simp only [hk, if_true]
    rw [List.map_map]
    apply List.map_congr_left
    intro p _
    by_cases hp : p.1 = k <;> simp [Function.comp, hp]
  · simp only [hk, if_false]
    rw [List.map_append]
    have h1 : d.map (fun p => if p.1 = k then (k, w) else p) = d := by
      conv_rhs => rw [← List.map_id d]
      apply List.map_congr_left
      intro p hp
      have hpk : p.1 ≠ k := fun hpk => hk (hpk ▸ List.mem_map_of_mem Prod.fst hp)
      simp [hpk]
    simp [h1]

theorem mem_values_dictInsert (d : List (α × β)) (k : α) (v w : β)
    (h : w ∈ (dictInsert d k v).map Prod.snd) :
    w ∈ d.map Prod.snd ∨ w = v := by
  unfold dictInsert at h
  by_cases hk : k ∈ dictKeys d
  · rw [if_pos hk, List.map_map] at h
    obtain ⟨p, hp, hpw⟩ := List.mem_map.mp h
    by_cases hpk : p.1 = k
    · right
      simpa [Function.comp, hpk] using hpw.symm
    · left
      exact List.mem_map.mpr ⟨p, hp, by simpa [Function.comp, hpk] using hpw⟩
  · rw [if_neg hk, List.map_append] at h
    rcases List.mem_append.mp h with h1 | h2
    · exact Or.inl h1
    · right; simpa using h2

theorem dictGet?_mem_values (d : List (α × β)) (k : α) (v : β)
    (h : dictGet? d k = some v) : v ∈ d.map Prod.snd := by
  unfold dictGet? at h
  cases hfind : d.find? (fun p => decide (p.1 = k)) with
  | none => rw [hfind] at h; simp at h
  | some p =>
    rw [hfind] at h
    have hp := List.mem_of_find?_eq_some hfind
    have h2 : p.2 = v := by simpa using h
    exact h2 ▸ List.mem_map_of_mem Prod.snd hp

end DictLemmas

theorem foldl_const_getLast? {α β : Type} (f : α → β) (b : β) (l : List α) :
    l.foldl (fun _ x => f x) b = l.getLast?.elim b f := by
  induction l generalizing b with
  | nil => rfl
  | cons x l ih =>
    rw [List.foldl_cons]
    cases l with
    | nil => rfl
    | cons y l2 =>
      rw [ih, List.getLast?_cons_cons]
      cases hgl : (y :: l2).getLast? with
      | none => exact absurd hgl (by simp)
      | some z => rfl

section RunLemmas

variable {ε : Type}
variable (diffractor : Structure → ℚ → Bool → Except ε SimData)
variable (sqrt0 : ℚ → ℚ)
variable (calibration reciprocal_radius : ℚ)
variable (half_shape : ℚ × ℚ)
variable (with_direct_beam : Bool)

theorem diffractor_eq_of_simOk (s : Structure) (o : Orientation)
    (h : simOk diffractor reciprocal_radius with_direct_beam s o = true) :
    diffractor (rotatedStructure s o) reciprocal_radius with_direct_beam =
      Except.ok (simValS diffractor reciprocal_radius with_direct_beam s o) := by
  unfold simOk at h
  unfold simValS
  cases hd : diffractor (rotatedStructure s o) reciprocal_radius with_direct_beam with
  | ok d => rfl
  | error e => rw [hd] at h; simp at h

theorem simOk_eq_true_iff (s : Structure) (o : Orientation) :
    simOk diffractor reciprocal_radius with_direct_beam s o = true ↔
      diffractor (rotatedStructure s o) reciprocal_radius with_direct_beam =
        Except.ok (simValS diffractor reciprocal_radius with_direct_beam s o) := by
  constructor
  · exact diffractor_eq_of_simOk diffractor reciprocal_radius with_direct_beam s o
  · intro h
    unfold simOk
    rw [h]

theorem phaseFold_cons (s : Structure) (o : Orientation) (os : List Orientation)
    (pd : PhaseDict) :
    phaseFold diffractor sqrt0 calibration reciprocal_radius half_shape
        with_direct_beam s (o :: os) pd =
      phaseFold diffractor sqrt0 calibration reciprocal_radius half_shape
        with_direct_beam s os
        (if retainedS diffractor reciprocal_radius with_direct_beam s o then
          dictInsert pd o
            (mkRecord sqrt0 calibration half_shape
              (simValS diffractor reciprocal_radius with_direct_beam s o))
        else pd) := rfl

theorem phaseFold_noRetained (s : Structure) (os : List Orientation) (pd : PhaseDict)
    (h : ∀ o ∈ os, retainedS diffractor reciprocal_radius with_direct_beam s o = false) :
    phaseFold diffractor sqrt0 calibration reciprocal_radius half_shape
      with_direct_beam s os pd = pd := by
  induction os generalizing pd with
  | nil => rfl
  | cons o os ih =>
    rw [phaseFold_cons]
    have h0 := h o (List.mem_cons_self o os)
    rw [h0]
    simp only [Bool.false_eq_true, if_false]
    exact ih _ (fun o' ho' => h o' (List.mem_cons_of_mem o ho'))

theorem processOrientations_cons (key : String) (s : Structure) (o : Orientation)
    (os : List Orientation) (st : Structure) (pd : PhaseDict) (lib : DiffDict) :
    processOrientations diffractor sqrt0 calibration reciprocal_radius half_shape
        with_direct_beam key s.lattice.a s.lattice.b s.lattice.c s.lattice.alpha
        s.lattice.beta s.lattice.gamma (o :: os) st pd lib =
      (match diffractor (rotatedStructure s o) reciprocal_radius
          with_direct_beam with
      | Except.error e => Except.error e
      | Except.ok data =>
        if data.intensities.length > 0 then
          processOrientations diffractor sqrt0 calibration reciprocal_radius
            half_shape with_direct_beam key s.lattice.a s.lattice.b s.lattice.c
            s.lattice.alpha s.lattice.beta s.lattice.gamma os
            (rotatedStructure s o)
            (dictInsert pd o (mkRecord sqrt0 calibration half_shape data))
            (dictInsert lib key
              (dictInsert pd o (mkRecord sqrt0 calibration half_shape data)))
        else
          processOrientations diffractor sqrt0 calibration reciprocal_radius
            half_shape with_direct_beam key s.lattice.a s.lattice.b s.lattice.c
            s.lattice.alpha s.lattice.beta s.lattice.gamma os
            (rotatedStructure s o) pd lib) := rfl

theorem processOrientations_eq (key : String) (s : Structure)
    (os : List Orientation) (st : Structure) (pd : PhaseDict) (lib : DiffDict)
    (h : ∀ o ∈ os, simOk diffractor reciprocal_radius with_direct_beam s o = true) :
    processOrientations diffractor sqrt0 calibration reciprocal_radius half_shape
        with_direct_beam key s.lattice.a s.lattice.b s.lattice.c s.lattice.alpha
        s.lattice.beta s.lattice.gamma os st pd lib =
      Except.ok
        (os.foldl (fun _ o => rotatedStructure s o) st,
         phaseFold diffractor sqrt0 calibration reciprocal_radius half_shape
           with_direct_beam s os pd,
         if os.any
             (fun o => retainedS diffractor reciprocal_radius with_direct_beam s o) then
           dictInsert lib key
             (phaseFold diffractor sqrt0 calibration reciprocal_radius half_shape
               with_direct_beam s os pd)
         else lib) := by
  induction os generalizing st pd lib with
  | nil => rfl
  | cons o os ih =>
    have ho := h o (List.mem_cons_self o os)
    have hrest : ∀ o' ∈ os,
        simOk diffractor reciprocal_radius with_direct_beam s o' = true :=
      fun o' ho' => h o' (List.mem_cons_of_mem o ho')
    rw [processOrientations_cons]
    cases hd : diffractor (rotatedStructure s o) reciprocal_radius with_direct_beam with
    | error e =>
      rw [simOk_eq_true_iff] at ho
      rw [hd] at ho
      simp at ho
    | ok data =>
      have hv : simValS diffractor reciprocal_radius with_direct_beam s o = data := by
        unfold simValS
        rw [hd]
      dsimp only
      by_cases hlen : data.intensities.length > 0
      · have hr : retainedS diffractor reciprocal_radius with_direct_beam s o = true := by
          unfold retainedS
          rw [hv]
          exact decide_eq_true hlen
        rw [if_pos hlen, ih _ _ _ hrest]
        simp only [List.foldl_cons]
        rw [phaseFold_cons]
        rw [if_pos hr, hv]
        simp only [List.any_cons]
        simp only [hr, Bool.true_or]
        by_cases hany : os.any
            (fun o' => retainedS diffractor reciprocal_radius with_direct_beam s o') = true
        · rw [if_pos hany]
          simp only [if_true]
          rw [dictInsert_dictInsert_same]
        · rw [if_neg hany]
          simp only [if_true]
          have hnone : ∀ o' ∈ os,
              retainedS diffractor reciprocal_radius with_direct_beam s o' = false := by
            intro o' ho'
            cases hval : retainedS diffractor reciprocal_radius with_direct_beam s o'
            · rfl
            · exact absurd (List.any_eq_true.mpr ⟨o', ho', hval⟩) hany
          rw [phaseFold_noRetained diffractor sqrt0 calibration reciprocal_radius
            half_shape with_direct_beam s os _ hnone]
      · have hr : retainedS diffractor reciprocal_radius with_direct_beam s o = false := by
          unfold retainedS
          rw [hv]
          exact decide_eq_false hlen
        rw [if_neg hlen, ih _ _ _ hrest]
        simp only [List.foldl_cons]
        rw [phaseFold_cons]
        simp only [hr, Bool.false_eq_true, if_false]
        simp only [List.any_cons]
        simp only [hr, Bool.false_or]

theorem processOrientations_isOk (key : String) (s : Structure)
    (os : List Orientation) (st : Structure) (pd : PhaseDict) (lib : DiffDict) :
    isOkE (processOrientations diffractor sqrt0 calibration reciprocal_radius
        half_shape with_direct_beam key s.lattice.a s.lattice.b s.lattice.c
        s.lattice.alpha s.lattice.beta s.lattice.gamma os st pd lib) = true ↔
      ∀ o ∈ os, simOk diffractor reciprocal_radius with_direct_beam s o = true := by
  induction os generalizing st pd lib with
  | nil => simp [processOrientations, isOkE]
  | cons o os ih =>
    rw [processOrientations_cons]
    cases hd : diffractor (rotatedStructure s o) reciprocal_radius with_direct_beam with
    | error e =>
      dsimp only [isOkE]
      constructor
      · intro hfalse
        exact absurd hfalse (by simp)
      · intro hall
        have h1 := hall o (List.mem_cons_self o os)
        rw [simOk_eq_true_iff] at h1
        rw [hd] at h1
        simp at h1
    | ok data =>
      dsimp only
      have hok : simOk diffractor reciprocal_radius with_direct_beam s o = true := by
        unfold simOk
        rw [hd]
      by_cases hlen : data.intensities.length > 0
      · rw [if_pos hlen, ih]
        simp [List.forall_mem_cons, hok]
      · rw [if_neg hlen, ih]
        simp [List.forall_mem_cons, hok]

theorem processOrientations_error (key : String) (s : Structure)
    (os : List Orientation) (st : Structure) (pd : PhaseDict) (lib : DiffDict)
    (e : ε)
    (h : processOrientations diffractor sqrt0 calibration reciprocal_radius
        half_shape with_direct_beam key s.lattice.a s.lattice.b s.lattice.c
        s.lattice.alpha s.lattice.beta s.lattice.gamma os st pd lib =
      Except.error e) :
    ∃ o ∈ os, diffractor (rotatedStructure s o) reciprocal_radius
      with_direct_beam = Except.error e := by
  induction os generalizing st pd lib with
  | nil => simp [processOrientations] at h
  | cons o os ih =>
    rw [processOrientations_cons] at h
    cases hd : diffractor (rotatedStructure s o) reciprocal_radius with_direct_beam with
    | error e2 =>
      rw [hd] at h
      dsimp only at h
      injection h with h2
      subst h2
      exact ⟨o, List.mem_cons_self o os, hd⟩
    | ok data =>
      rw [hd] at h
      dsimp only at h
      by_cases hlen : data.intensities.length > 0
      · rw [if_pos hlen] at h
        obtain ⟨o', ho', he⟩ := ih _ _ _ h
        exact ⟨o', List.mem_cons_of_mem o ho', he⟩
      · rw [if_neg hlen] at h
        obtain ⟨o', ho', he⟩ := ih _ _ _ h
        exact ⟨o', List.mem_cons_of_mem o ho', he⟩

theorem processPhases_cons (key : String) (st : Structure)
    (orientations : List Orientation)
    (rest : List (String × Structure × List Orientation)) (lib : DiffDict) :
    processPhases diffractor sqrt0 calibration reciprocal_radius half_shape
        with_direct_beam ((key, st, orientations) :: rest) lib =
      (match processOrientations diffractor sqrt0 calibration reciprocal_radius
          half_shape with_direct_beam key st.lattice.a st.lattice.b st.lattice.c
          st.lattice.alpha st.lattice.beta st.lattice.gamma orientations st []
          lib with
      | Except.error e => Except.error e
      | Except.ok (st1, _, lib1) =>
        match processPhases diffractor sqrt0 calibration reciprocal_radius
            half_shape with_direct_beam rest lib1 with
        | Except.error e => Except.error e
        | Except.ok (rest1, lib2) =>
          Except.ok ((key, st1, orientations) :: rest1, lib2)) := rfl

theorem processPhases_eq (entries : List (String × Structure × List Orientation))
    (lib : DiffDict)
    (h : ∀ e ∈ entries, ∀ o ∈ e.2.2,
      simOk diffractor reciprocal_radius with_direct_beam e.2.1 o = true) :
    processPhases diffractor sqrt0 calibration reciprocal_radius half_shape
        with_direct_beam entries lib =
      Except.ok (entries.map entryFinal,
        phasesFold diffractor sqrt0 calibration reciprocal_radius half_shape
          with_direct_beam entries lib) := by
  induction entries generalizing lib with
  | nil => rfl
  | cons e rest ih =>
    obtain ⟨key, st, orientations⟩ := e
    have he : ∀ o ∈ orientations,
        simOk diffractor reciprocal_radius with_direct_beam st o = true :=
      h (key, st, orientations) (List.mem_cons_self _ _)
    rw [processPhases_cons]
    rw [processOrientations_eq diffractor sqrt0 calibration reciprocal_radius
      half_shape with_direct_beam key st orientations st [] lib he]
    dsimp only
    rw [ih _ (fun e' he' => h e' (List.mem_cons_of_mem _ he'))]
    rfl

theorem processPhases_isOk (entries : List (String × Structure × List Orientation))
    (lib : DiffDict) :
    isOkE (processPhases diffractor sqrt0 calibration reciprocal_radius
        half_shape with_direct_beam entries lib) = true ↔
      ∀ e ∈ entries, ∀ o ∈ e.2.2,
        simOk diffractor reciprocal_radius with_direct_beam e.2.1 o = true := by
  induction entries generalizing lib with
  | nil => simp [processPhases, isOkE]
  | cons e rest ih =>
    obtain ⟨key, st, orientations⟩ := e
    rw [processPhases_cons]
    cases hpo : processOrientations diffractor sqrt0 calibration reciprocal_radius
        half_shape with_direct_beam key st.lattice.a st.lattice.b st.lattice.c
        st.lattice.alpha st.lattice.beta st.lattice.gamma orientations st [] lib with
    | error e2 =>
      dsimp only [isOkE]
      constructor
      · intro hfalse
        exact absurd hfalse (by simp)
      · intro hall
        have h1 : isOkE (processOrientations diffractor sqrt0 calibration
            reciprocal_radius half_shape with_direct_beam key st.lattice.a
            st.lattice.b st.lattice.c st.lattice.alpha st.lattice.beta
            st.lattice.gamma orientations st [] lib) = true := by
          rw [processOrientations_isOk]
          exact fun o ho => hall (key, st, orientations) (List.mem_cons_self _ _) o ho
        rw [hpo] at h1
        simp [isOkE] at h1
    | ok tri =>
      obtain ⟨st1, pd1, lib1⟩ := tri
      dsimp only
      cases hpp : processPhases diffractor sqrt0 calibration reciprocal_radius
          half_shape with_direct_beam rest lib1 with
      | error e2 =>
        dsimp only [isOkE]
        constructor
        · intro hfalse
          exact absurd hfalse (by simp)
        · intro hall
          have h2 : isOkE (processPhases diffractor sqrt0 calibration
              reciprocal_radius half_shape with_direct_beam rest lib1) = true := by
            rw [ih]
            exact fun e' he' => hall e' (List.mem_cons_of_mem _ he')
          rw [hpp] at h2
          simp [isOkE] at h2
      | ok pr =>
        obtain ⟨rest1, lib2⟩ := pr
        dsimp only [isOkE]
        constructor
        · intro _
          intro e' he'
          rcases List.mem_cons.mp he' with rfl | hmem
          · intro o ho
            have h1 : isOkE (processOrientations diffractor sqrt0 calibration
                reciprocal_radius half_shape with_direct_beam key st.lattice.a
                st.lattice.b st.lattice.c st.lattice.alpha st.lattice.beta
                st.lattice.gamma orientations st [] lib) = true := by
              rw [hpo]
              rfl
            rw [processOrientations_isOk] at h1
            exact h1 o ho
          · have h2 : isOkE (processPhases diffractor sqrt0 calibration
                reciprocal_radius half_shape with_direct_beam rest lib1) = true := by
              rw [hpp]
              rfl
            rw [ih] at h2
            exact h2 e' hmem
        · intro _
          rfl

theorem processPhases_error (entries : List (String × Structure × List Orientation))
    (lib : DiffDict) (e : ε)
    (h : processPhases diffractor sqrt0 calibration reciprocal_radius half_shape
        with_direct_beam entries lib = Except.error e) :
    ∃ en ∈ entries, ∃ o ∈ en.2.2,
      diffractor (rotatedStructure en.2.1 o) reciprocal_radius with_direct_beam =
        Except.error e := by
  induction entries generalizing lib with
  | nil => simp [processPhases] at h
  | cons en rest ih =>
    obtain ⟨key, st, orientations⟩ := en
    rw [processPhases_cons] at h
    cases hpo : processOrientations diffractor sqrt0 calibration reciprocal_radius
        half_shape with_direct_beam key st.lattice.a st.lattice.b st.lattice.c
        st.lattice.alpha st.lattice.beta st.lattice.gamma orientations st [] lib with
    | error e2 =>
      rw [hpo] at h
      dsimp only at h
      injection h with h2
      subst h2
      obtain ⟨o, ho, hdo⟩ := processOrientations_error diffractor sqrt0 calibration
        reciprocal_radius half_shape with_direct_beam key st orientations st [] lib _ hpo
      exact ⟨(key, st, orientations), List.mem_cons_self _ _, o, ho, hdo⟩
    | ok tri =>
      obtain ⟨st1, pd1, lib1⟩ := tri
      rw [hpo] at h
      dsimp only at h
      cases hpp : processPhases diffractor sqrt0 calibration reciprocal_radius
          half_shape with_direct_beam rest lib1 with
      | error e2 =>
        rw [hpp] at h
        dsimp only at h
        injection h with h2
        subst h2
        obtain ⟨en', hen', o, ho, hdo⟩ := ih _ hpp
        exact ⟨en', List.mem_cons_of_mem _ hen', o, ho, hdo⟩
      | ok pr =>
        obtain ⟨rest1, lib2⟩ := pr
        rw [hpp] at h
        dsimp only at h
        exact absurd h (by simp)

theorem dictGet?_phaseFold (s : Structure) (os : List Orientation) (pd : PhaseDict)
    (o : Orientation) :
    dictGet? (phaseFold diffractor sqrt0 calibration reciprocal_radius half_shape
        with_direct_beam s os pd) o =
      if o ∈ os ∧ retainedS diffractor reciprocal_radius with_direct_beam s o = true then
        some (mkRecord sqrt0 calibration half_shape
          (simValS diffractor reciprocal_radius with_direct_beam s o))
      else dictGet? pd o := by
  induction os generalizing pd with
  | nil => simp [phaseFold]
  | cons o1 os ih =>
    rw [phaseFold_cons, ih]
    by_cases hc : o ∈ os ∧ retainedS diffractor reciprocal_radius with_direct_beam s o = true
    · rw [if_pos hc, if_pos ⟨List.mem_cons_of_mem _ hc.1, hc.2⟩]
    · rw [if_neg hc]
      by_cases hro1 : retainedS diffractor reciprocal_radius with_direct_beam s o1 = true
      · rw [if_pos hro1, dictGet?_dictInsert]
        by_cases hoo : o = o1
        · subst hoo
          rw [if_pos rfl, if_pos ⟨List.mem_cons_self _ _, hro1⟩]
        · rw [if_neg hoo]
          have hnc : ¬ (o ∈ o1 :: os ∧
              retainedS diffractor reciprocal_radius with_direct_beam s o = true) := by
            rintro ⟨hmem, hret⟩
            rcases List.mem_cons.mp hmem with h1 | h2
            · exact hoo h1
            · exact hc ⟨h2, hret⟩
          rw [if_neg hnc]
      · rw [if_neg hro1]
        have hnc : ¬ (o ∈ o1 :: os ∧
            retainedS diffractor reciprocal_radius with_direct_beam s o = true) := by
          rintro ⟨hmem, hret⟩
          rcases List.mem_cons.mp hmem with h1 | h2
          · exact hro1 (h1 ▸ hret)
          · exact hc ⟨h2, hret⟩
        rw [if_neg hnc]

theorem phaseFold_keys_nodup (s : Structure) (os : List Orientation) (pd : PhaseDict)
    (h : (dictKeys pd).Nodup) :
    (dictKeys (phaseFold diffractor sqrt0 calibration reciprocal_radius half_shape
      with_direct_beam s os pd)).Nodup := by
  induction os generalizing pd with
  | nil => exact h
  | cons o os ih =>
    rw [phaseFold_cons]
    by_cases hr : retainedS diffractor reciprocal_radius with_direct_beam s o = true
    · rw [if_pos hr]
      exact ih _ (dictKeys_nodup_dictInsert _ _ _ h)
    · rw [if_neg hr]
      exact ih _ h

theorem mem_values_phaseFold (s : Structure) (os : List Orientation) (pd : PhaseDict)
    (r : SimRecord)
    (h : r ∈ (phaseFold diffractor sqrt0 calibration reciprocal_radius half_shape
      with_direct_beam s os pd).map Prod.snd) :
    r ∈ pd.map Prod.snd ∨ ∃ o ∈ os,
      r = mkRecord sqrt0 calibration half_shape
        (simValS diffractor reciprocal_radius with_direct_beam s o) := by
  induction os generalizing pd with
  | nil => exact Or.inl h
  | cons o os ih =>
    rw [phaseFold_cons] at h
    by_cases hr : retainedS diffractor reciprocal_radius with_direct_beam s o = true
    · rw [if_pos hr] at h
      rcases ih _ h with h1 | ⟨o', ho', hr'⟩
      · rcases mem_values_dictInsert _ _ _ _ h1 with h2 | h2
        · exact Or.inl h2
        · exact Or.inr ⟨o, List.mem_cons_self _ _, h2⟩
      · exact Or.inr ⟨o', List.mem_cons_of_mem _ ho', hr'⟩
    · rw [if_neg hr] at h
      rcases ih _ h with h1 | ⟨o', ho', hr'⟩
      · exact Or.inl h1
      · exact Or.inr ⟨o', List.mem_cons_of_mem _ ho', hr'⟩

theorem phasesFold_cons (e : String × Structure × List Orientation)
    (entries : List (String × Structure × List Orientation)) (lib : DiffDict) :
    phasesFold diffractor sqrt0 calibration reciprocal_radius half_shape
        with_direct_beam (e :: entries) lib =
      phasesFold diffractor sqrt0 calibration reciprocal_radius half_shape
        with_direct_beam entries
        (if entryAny diffractor reciprocal_radius with_direct_beam e then
          dictInsert lib e.1
            (entryPd diffractor sqrt0 calibration reciprocal_radius half_shape
              with_direct_beam e)
        else lib) := rfl

theorem dictGet?_phasesFold_untouched
    (entries : List (String × Structure × List Orientation)) (lib : DiffDict)
    (k : String) (h : k ∉ entries.map Prod.fst) :
    dictGet? (phasesFold diffractor sqrt0 calibration reciprocal_radius half_shape
      with_direct_beam entries lib) k = dictGet? lib k := by
  induction entries generalizing lib with
  | nil => rfl
  | cons e rest ih =>
    rw [phasesFold_cons]
    have hk : k ∉ rest.map Prod.fst := fun hm => h (List.mem_cons_of_mem _ hm)
    have hke : ¬ k = e.1 := fun hkeq =>
      h (hkeq ▸ List.mem_map_of_mem Prod.fst (List.mem_cons_self _ _))
    rw [ih _ hk]
    by_cases ha : entryAny diffractor reciprocal_radius with_direct_beam e = true
    · rw [if_pos ha, dictGet?_dictInsert, if_neg hke]
    · rw [if_neg ha]

theorem dictGet?_phasesFold
    (entries : List (String × Structure × List Orientation)) (lib : DiffDict)
    (k : String) (s : Structure) (os : List Orientation)
    (hnd : (entries.map Prod.fst).Nodup) (hmem : (k, s, os) ∈ entries) :
    dictGet? (phasesFold diffractor sqrt0 calibration reciprocal_radius half_shape
        with_direct_beam entries lib) k =
      if entryAny diffractor reciprocal_radius with_direct_beam (k, s, os) = true then
        some (entryPd diffractor sqrt0 calibration reciprocal_radius half_shape
          with_direct_beam (k, s, os))
      else dictGet? lib k := by
  induction entries generalizing lib with
  | nil => exact absurd hmem (by simp)
  | cons e rest ih =>
    rw [phasesFold_cons]
    rcases List.mem_cons.mp hmem with heq | hmem2
    · subst heq
      have hknotin : k ∉ rest.map Prod.fst := by
        rw [List.map_cons] at hnd
        exact (List.nodup_cons.mp hnd).1
      rw [dictGet?_phasesFold_untouched diffractor sqrt0 calibration
        reciprocal_radius half_shape with_direct_beam rest _ k hknotin]
      by_cases ha : entryAny diffractor reciprocal_radius with_direct_beam
          (k, s, os) = true
      · rw [if_pos ha, if_pos ha, dictGet?_dictInsert, if_pos rfl]
      · rw [if_neg ha, if_neg ha]
    · have hkrest : k ∈ rest.map Prod.fst :=
        List.mem_map_of_mem Prod.fst hmem2
      have hnd2 : (rest.map Prod.fst).Nodup := by
        rw [List.map_cons] at hnd
        exact (List.nodup_cons.mp hnd).2
      have hke : ¬ e.1 = k := by
        intro hkeq
        rw [List.map_cons] at hnd
        exact (List.nodup_cons.mp hnd).1 (hkeq ▸ hkrest)
      rw [ih _ hnd2 hmem2]
      by_cases ha : entryAny diffractor reciprocal_radius with_direct_beam
          (k, s, os) = true
      · rw [if_pos ha, if_pos ha]
      · rw [if_neg ha, if_neg ha]
        by_cases hae : entryAny diffractor reciprocal_radius with_direct_beam e = true
        · rw [if_pos hae, dictGet?_dictInsert, if_neg (fun hkk => hke hkk.symm)]
        · rw [if_neg hae]

theorem mem_dictKeys_phasesFold
    (entries : List (String × Structure × List Orientation)) (lib : DiffDict)
    (k : String) :
    k ∈ dictKeys (phasesFold diffractor sqrt0 calibration reciprocal_radius
        half_shape with_direct_beam entries lib) ↔
      k ∈ dictKeys lib ∨ ∃ e ∈ entries, e.1 = k ∧
        entryAny diffractor reciprocal_radius with_direct_beam e = true := by
  induction entries generalizing lib with
  | nil => simp [phasesFold]
  | cons e rest ih =>
    rw [phasesFold_cons]
    by_cases ha : entryAny diffractor reciprocal_radius with_direct_beam e = true
    · rw [if_pos ha, ih]
      simp only [mem_dictKeys_dictInsert]
      constructor
      · rintro ((rfl | hmem) | hex)
        · exact Or.inr ⟨e, List.mem_cons_self _ _, rfl, ha⟩
        · exact Or.inl hmem
        · obtain ⟨e', he', h1, h2⟩ := hex
          exact Or.inr ⟨e', List.mem_cons_of_mem _ he', h1, h2⟩
      · rintro (hmem | hex)
        · exact Or.inl (Or.inr hmem)
        · obtain ⟨e', he', h1, h2⟩ := hex
          rcases List.mem_cons.mp he' with rfl | he2
          · exact Or.inl (Or.inl h1.symm)
          · exact Or.inr ⟨e', he2, h1, h2⟩
    · rw [if_neg ha, ih]
      constructor
      · rintro (hmem | hex)
        · exact Or.inl hmem
        · obtain ⟨e', he', h1, h2⟩ := hex
          exact Or.inr ⟨e', List.mem_cons_of_mem _ he', h1, h2⟩
      · rintro (hmem | hex)
        · exact Or.inl hmem
        · obtain ⟨e', he', h1, h2⟩ := hex
          rcases List.mem_cons.mp he' with rfl | he2
          · exact absurd h2 ha
          · exact Or.inr ⟨e', he2, h1, h2⟩

theorem mem_values_phasesFold
    (entries : List (String × Structure × List Orientation)) (lib : DiffDict)
    (pd : PhaseDict)
    (h : pd ∈ (phasesFold diffractor sqrt0 calibration reciprocal_radius
      half_shape with_direct_beam entries lib).map Prod.snd) :
    pd ∈ lib.map Prod.snd ∨ ∃ e ∈ entries,
      pd = entryPd diffractor sqrt0 calibration reciprocal_radius half_shape
        with_direct_beam e := by
  induction entries generalizing lib with
  | nil => exact Or.inl h
  | cons e rest ih =>
    rw [phasesFold_cons] at h
    by_cases ha : entryAny diffractor reciprocal_radius with_direct_beam e = true
    · rw [if_pos ha] at h
      rcases ih _ h with h1 | ⟨e', he', h2⟩
      · rcases mem_values_dictInsert _ _ _ _ h1 with h2 | h2
        · exact Or.inl h2
        · exact Or.inr ⟨e, List.mem_cons_self _ _, h2⟩
      · exact Or.inr ⟨e', List.mem_cons_of_mem _ he', h2⟩
    · rw [if_neg ha] at h
      rcases ih _ h with h1 | ⟨e', he', h2⟩
      · exact Or.inl h1
      · exact Or.inr ⟨e', List.mem_cons_of_mem _ he', h2⟩

end RunLemmas

theorem entry_unique {α β : Type} (l : List (α × β)) (hnd : (l.map Prod.fst).Nodup)
    {e1 e2 : α × β} (h1 : e1 ∈ l) (h2 : e2 ∈ l) (hk : e1.1 = e2.1) : e1 = e2 := by
  induction l with
  | nil => exact absurd h1 (by simp)
  | cons hd tl ih =>
    rw [List.map_cons] at hnd
    have hnc := List.nodup_cons.mp hnd
    rcases List.mem_cons.mp h1 with rfl | h1t
    · rcases List.mem_cons.mp h2 with rfl | h2t
      · rfl
      · exact absurd (hk ▸ List.mem_map_of_mem Prod.fst h2t) hnc.1
    · rcases List.mem_cons.mp h2 with rfl | h2t
      · exact absurd (hk ▸ List.mem_map_of_mem Prod.fst h1t) hnc.1
      · exact ih hnc.2 h1t h2t

section FoldInsert

variable {α K V : Type} [DecidableEq K]

theorem dictGet?_foldl_insert_untouched (key : α → K) (val : α → V)
    (l : List α) (d0 : List (K × V)) (k : K) (h : k ∉ l.map key) :
    dictGet? (l.foldl (fun d y => dictInsert d (key y) (val y)) d0) k =
      dictGet? d0 k := by
  induction l generalizing d0 with
  | nil => rfl
  | cons x l ih =>
    rw [List.foldl_cons]
    have hk : k ∉ l.map key := fun hm => h (List.mem_cons_of_mem _ hm)
    have hke : ¬ k = key x := fun hkeq =>
      h (hkeq ▸ List.mem_map_of_mem key (List.mem_cons_self _ _))
    rw [ih _ hk, dictGet?_dictInsert, if_neg hke]

theorem dictGet?_foldl_insert (key : α → K) (val : α → V)
    (l : List α) (d0 : List (K × V)) (x : α)
    (hnd : (l.map key).Nodup) (hmem : x ∈ l) :
    dictGet? (l.foldl (fun d y => dictInsert d (key y) (val y)) d0) (key x) =
      some (val x) := by
  induction l generalizing d0 with
  | nil => exact absurd hmem (by simp)
  | cons y l ih =>
    rw [List.foldl_cons]
    rw [List.map_cons] at hnd
    have hnc := List.nodup_cons.mp hnd
    rcases List.mem_cons.mp hmem with rfl | hmem2
    · rw [dictGet?_foldl_insert_untouched key val l _ (key x) hnc.1]
      rw [dictGet?_dictInsert, if_pos rfl]
    · exact ih _ hnc.2 hmem2

theorem dictKeys_foldl_insert (key : α → K) (val : α → V)
    (l : List α) (d0 : List (K × V))
    (hnd : (l.map key).Nodup) (hfresh : ∀ y ∈ l, key y ∉ dictKeys d0) :
    dictKeys (l.foldl (fun d y => dictInsert d (key y) (val y)) d0) =
      dictKeys d0 ++ l.map key := by
  induction l generalizing d0 with
  | nil => simp
  | cons x l ih =>
    rw [List.foldl_cons, List.map_cons]
    rw [List.map_cons] at hnd
    have hnc := List.nodup_cons.mp hnd
    have hkeys : dictKeys (dictInsert d0 (key x) (val x)) = dictKeys d0 ++ [key x] := by
      rw [dictKeys_dictInsert, if_neg (hfresh x (List.mem_cons_self _ _))]
    have hfresh2 : ∀ y ∈ l, key y ∉ dictKeys (dictInsert d0 (key x) (val x)) := by
      intro y hy hmem
      rw [hkeys] at hmem
      rcases List.mem_append.mp hmem with hm | hm
      · exact hfresh y (List.mem_cons_of_mem _ hy) hm
      · have : key y = key x := by simpa using hm
        exact hnc.1 (this ▸ List.mem_map_of_mem key hy)
    rw [ih _ hnc.2 hfresh2, hkeys]
    simp

end FoldInsert

theorem list_sum_range (f : Nat → Nat) (n : Nat) :
    ((List.range n).map f).sum = ∑ i in Finset.range n, f i := by
  induction n with
  | zero => simp
  | succ m ih =>
    rw [List.range_succ, List.map_append, List.sum_append, Finset.sum_range_succ, ih]
    simp

theorem length_combinations2 (n : Nat) :
    (combinations2 n).length * 2 = n * (n - 1) := by
  unfold combinations2
  rw [List.length_flatten, List.map_map]
  have hmap : (List.range n).map
      (List.length ∘ fun i => ((List.range n).drop (i + 1)).map (fun j => (i, j))) =
      (List.range n).map (fun i => n - 1 - i) := by
    apply List.map_congr_left
    intro i _
    simp only [Function.comp]
    rw [List.length_map, List.length_drop, List.length_range]
    omega
  rw [hmap, list_sum_range, Finset.sum_range_reflect (fun i => i) n]
  exact Finset.sum_range_id_mul_two n

theorem mem_combinations2 (n : Nat) (p : Nat × Nat) (h : p ∈ combinations2 n) :
    p.1 < p.2 ∧ p.2 < n := by
  unfold combinations2 at h
  rw [List.mem_flatten] at h
  obtain ⟨l, hl, hpl⟩ := h
  rw [List.mem_map] at hl
  obtain ⟨i, hi, rfl⟩ := hl
  rw [List.mem_map] at hpl
  obtain ⟨j, hj, rfl⟩ := hpl
  constructor
  · obtain ⟨idx, hidx, hget⟩ := List.mem_iff_getElem.mp hj
    rw [List.getElem_drop, List.getElem_range] at hget
    omega
  · exact List.mem_range.mp (List.mem_of_mem_drop hj)

theorem pairwise_combinations2 (n : Nat) :
    List.Pairwise (fun p q : Nat × Nat => p.1 < q.1 ∨ (p.1 = q.1 ∧ p.2 < q.2))
      (combinations2 n) := by
  unfold combinations2
  rw [List.pairwise_flatten]
  constructor
  · intro l hl
    rw [List.mem_map] at hl
    obtain ⟨i, hi, rfl⟩ := hl
    rw [List.pairwise_map]
    have hdp : List.Pairwise (fun x1 x2 : Nat => x1 < x2)
        ((List.range n).drop (i + 1)) :=
      List.Pairwise.sublist (List.drop_sublist _ _) (List.pairwise_lt_range n)
    exact hdp.imp (fun hlt => Or.inr ⟨rfl, hlt⟩)
  · rw [List.pairwise_map]
    have hpr := List.pairwise_lt_range n
    apply hpr.imp
    intro i i' hii x hx y hy
    rw [List.mem_map] at hx hy
    obtain ⟨j, hj, rfl⟩ := hx
    obtain ⟨j', hj', rfl⟩ := hy
    exact Or.inl hii

theorem nodup_combinations2 (n : Nat) : (combinations2 n).Nodup := by
  have h := pairwise_combinations2 n
  refine h.imp ?_
  intro p q hr heq
  rcases hr with h1 | ⟨h2, h3⟩
  · rw [heq] at h1
    exact lt_irrefl _ h1
  · rw [heq] at h3
    exact lt_irrefl _ h3

theorem combinations2_small (n : Nat) (h : n < 2) : combinations2 n = [] := by
  cases n with
  | zero => rfl
  | succ m =>
    cases m with
    | zero => rfl
    | succ k => omega

theorem mkRecord_pixel (sqrt0 : ℚ → ℚ) (calibration : ℚ) (half_shape : ℚ × ℚ)
    (data0 : SimData) :
    (mkRecord sqrt0 calibration half_shape data0).pixel_coords =
      ((mkRecord sqrt0 calibration half_shape data0).Sim.calibrated_coordinates
          calibration).map
        (fun v => (rint (v.1 + half_shape.1), rint (v.2.1 + half_shape.2))) := rfl

theorem mkRecord_norm (sqrt0 : ℚ → ℚ) (calibration : ℚ) (half_shape : ℚ × ℚ)
    (data0 : SimData) :
    (mkRecord sqrt0 calibration half_shape data0).pattern_norm =
      sqrt0 (dot (mkRecord sqrt0 calibration half_shape data0).intensities
        (mkRecord sqrt0 calibration half_shape data0).intensities) := rfl

section TopLemmas

variable {ε : Type}
variable (diffractor : Structure → ℚ → Bool → Except ε SimData)
variable (sqrt0 : ℚ → ℚ)
variable (calibration reciprocal_radius : ℚ)
variable (half_shape : ℚ × ℚ)
variable (with_direct_beam : Bool)

theorem retainedS_iff (s : Structure) (o : Orientation) :
    retainedS diffractor reciprocal_radius with_direct_beam s o = true ↔
      (simValS diffractor reciprocal_radius with_direct_beam s o).intensities ≠ [] := by
  unfold retainedS
  rw [decide_eq_true_eq]
  constructor
  · intro h hnil
    rw [hnil] at h
    simp at h
  · intro h
    cases hl : (simValS diffractor reciprocal_radius with_direct_beam s o).intensities with
    | nil => exact absurd hl h
    | cons x xs => simp

theorem entryAny_eq_true_iff (k : String) (s : Structure) (os : List Orientation) :
    entryAny diffractor reciprocal_radius with_direct_beam (k, s, os) = true ↔
      ∃ o ∈ os, retainedS diffractor reciprocal_radius with_direct_beam s o = true := by
  unfold entryAny
  exact List.any_eq_true

theorem get_diffraction_library_isOk (structure_library : StructureLibrary) :
    isOkE (get_diffraction_library diffractor sqrt0 structure_library calibration
        reciprocal_radius half_shape with_direct_beam) = true ↔
      ∀ e ∈ structure_library.struct_lib, ∀ o ∈ e.2.2,
        simOk diffractor reciprocal_radius with_direct_beam e.2.1 o = true := by
  unfold get_diffraction_library
  cases hpp : processPhases diffractor sqrt0 calibration reciprocal_radius
      half_shape with_direct_beam structure_library.struct_lib [] with
  | error e =>
    dsimp only [isOkE]
    constructor
    · intro hfalse
      exact absurd hfalse (by simp)
    · intro hall
      have h1 := (processPhases_isOk diffractor sqrt0 calibration reciprocal_radius
        half_shape with_direct_beam structure_library.struct_lib []).mpr hall
      rw [hpp] at h1
      simp [isOkE] at h1
  | ok pr =>
    obtain ⟨entries1, libdict⟩ := pr
    dsimp only [isOkE]
    constructor
    · intro _
      exact (processPhases_isOk diffractor sqrt0 calibration reciprocal_radius
        half_shape with_direct_beam structure_library.struct_lib []).mp
        (by rw [hpp]; rfl)
    · intro _
      rfl

theorem get_diffraction_library_eq (structure_library : StructureLibrary)
    (h : ∀ e ∈ structure_library.struct_lib, ∀ o ∈ e.2.2,
      simOk diffractor reciprocal_radius with_direct_beam e.2.1 o = true) :
    get_diffraction_library diffractor sqrt0 structure_library calibration
        reciprocal_radius half_shape with_direct_beam =
      Except.ok
        ({ dict := phasesFold diffractor sqrt0 calibration reciprocal_radius
             half_shape with_direct_beam structure_library.struct_lib []
         , identifiers := structure_library.indentifiers
         , structures := structure_library.structures },
         { structure_library with
            struct_lib := structure_library.struct_lib.map entryFinal }) := by
  unfold get_diffraction_library
  rw [processPhases_eq diffractor sqrt0 calibration reciprocal_radius half_shape
    with_direct_beam structure_library.struct_lib [] h]

theorem get_diffraction_library_error (structure_library : StructureLibrary)
    (e : ε)
    (h : get_diffraction_library diffractor sqrt0 structure_library calibration
        reciprocal_radius half_shape with_direct_beam = Except.error e) :
    ∃ en ∈ structure_library.struct_lib, ∃ o ∈ en.2.2,
      diffractor (rotatedStructure en.2.1 o) reciprocal_radius with_direct_beam =
        Except.error e := by
  unfold get_diffraction_library at h
  cases hpp : processPhases diffractor sqrt0 calibration reciprocal_radius
      half_shape with_direct_beam structure_library.struct_lib [] with
  | error e2 =>
    rw [hpp] at h
    dsimp only at h
    injection h with h2
    subst h2
    exact processPhases_error diffractor sqrt0 calibration reciprocal_radius
      half_shape with_direct_beam structure_library.struct_lib [] _ hpp
  | ok pr =>
    obtain ⟨entries1, libdict⟩ := pr
    rw [hpp] at h
    dsimp only at h
    exact absurd h (by simp)

theorem record_in_library (structure_library : StructureLibrary)
    (k : String) (o : Orientation) (r : SimRecord)
    (hok : isOkE (get_diffraction_library diffractor sqrt0 structure_library
      calibration reciprocal_radius half_shape with_direct_beam) = true)
    (hr : dictGet? (subdict (okLib (get_diffraction_library diffractor sqrt0
      structure_library calibration reciprocal_radius half_shape
      with_direct_beam)) k) o = some r) :
    ∃ s' o', r = mkRecord sqrt0 calibration half_shape
      (simValS diffractor reciprocal_radius with_direct_beam s' o') := by
  have hall := (get_diffraction_library_isOk diffractor sqrt0 calibration
    reciprocal_radius half_shape with_direct_beam structure_library).mp hok
  rw [get_diffraction_library_eq diffractor sqrt0 calibration reciprocal_radius
    half_shape with_direct_beam structure_library hall] at hr
  unfold okLib subdict at hr
  dsimp only at hr
  cases hpd : dictGet? (phasesFold diffractor sqrt0 calibration reciprocal_radius
      half_shape with_direct_beam structure_library.struct_lib []) k with
  | none =>
    rw [hpd] at hr
    exact Option.noConfusion hr
  | some pd =>
    rw [hpd] at hr
    have hpdv := dictGet?_mem_values _ _ _ hpd
    rcases mem_values_phasesFold diffractor sqrt0 calibration reciprocal_radius
      half_shape with_direct_beam structure_library.struct_lib [] pd hpdv with
      h1 | ⟨e', he', h2⟩
    · simp at h1
    · subst h2
      have hrv := dictGet?_mem_values _ _ _ hr
      rcases mem_values_phaseFold diffractor sqrt0 calibration reciprocal_radius
        half_shape with_direct_beam e'.2.1 e'.2.2 [] r hrv with h3 | ⟨o', ho', h4⟩
      · simp at h3
      · exact ⟨e'.2.1, o', h4⟩

end TopLemmas

theorem rotatedStructure_rotated (s : Structure) (o' o : Orientation) :
    rotatedStructure (rotatedStructure s o') o = rotatedStructure s o := rfl

theorem entryFinal_struct (e : String × Structure × List Orientation) :
    (entryFinal e).2.1 = e.2.2.getLast?.elim e.2.1 (rotatedStructure e.2.1) := by
  show e.2.2.foldl (fun _ o => rotatedStructure e.2.1 o) e.2.1 = _
  exact foldl_const_getLast? (fun o => rotatedStructure e.2.1 o) e.2.1 e.2.2

theorem rotatedStructure_entryFinal (e : String × Structure × List Orientation)
    (o : Orientation) :
    rotatedStructure (entryFinal e).2.1 o = rotatedStructure e.2.1 o := by
  rw [entryFinal_struct]
  cases hgl : e.2.2.getLast? with
  | none => rfl
  | some o' => exact rotatedStructure_rotated _ _ _

theorem lattice_elim_comm (e : String × Structure × List Orientation) :
    (e.2.2.getLast?.elim e.2.1 (rotatedStructure e.2.1)).lattice =
      e.2.2.getLast?.elim e.2.1.lattice
        (fun o => (rotatedStructure e.2.1 o).lattice) := by
  cases e.2.2.getLast? with
  | none => rfl
  | some o => rfl

theorem cellParams_entryFinal (e : String × Structure × List Orientation) :
    cellParams (entryFinal e).2.1.lattice = cellParams e.2.1.lattice := by
  rw [entryFinal_struct]
  cases e.2.2.getLast? with
  | none => rfl
  | some o => rfl

section CongrLemmas

variable {ε : Type}
variable (diffractor : Structure → ℚ → Bool → Except ε SimData)
variable (sqrt0 : ℚ → ℚ)
variable (calibration reciprocal_radius : ℚ)
variable (half_shape : ℚ × ℚ)
variable (with_direct_beam : Bool)

theorem simValS_congr (s' s : Structure)
    (hs : ∀ o, rotatedStructure s' o = rotatedStructure s o) (o : Orientation) :
    simValS diffractor reciprocal_radius with_direct_beam s' o =
      simValS diffractor reciprocal_radius with_direct_beam s o := by
  unfold simValS
  rw [hs o]

theorem retainedS_congr (s' s : Structure)
    (hs : ∀ o, rotatedStructure s' o = rotatedStructure s o) (o : Orientation) :
    retainedS diffractor reciprocal_radius with_direct_beam s' o =
      retainedS diffractor reciprocal_radius with_direct_beam s o := by
  unfold retainedS simValS
  rw [hs o]

theorem phaseFold_congr (s' s : Structure)
    (hs : ∀ o, rotatedStructure s' o = rotatedStructure s o)
    (os : List Orientation) (pd : PhaseDict) :
    phaseFold diffractor sqrt0 calibration reciprocal_radius half_shape
        with_direct_beam s' os pd =
      phaseFold diffractor sqrt0 calibration reciprocal_radius half_shape
        with_direct_beam s os pd := by
  induction os generalizing pd with
  | nil => rfl
  | cons o os ih =>
    rw [phaseFold_cons, phaseFold_cons,
      retainedS_congr diffractor reciprocal_radius with_direct_beam s' s hs o,
      simValS_congr diffractor reciprocal_radius with_direct_beam s' s hs o]
    exact ih _

theorem simOk_entryFinal (e : String × Structure × List Orientation)
    (o : Orientation) :
    simOk diffractor reciprocal_radius with_direct_beam (entryFinal e).2.1 o =
      simOk diffractor reciprocal_radius with_direct_beam e.2.1 o := by
  unfold simOk
  rw [rotatedStructure_entryFinal]

theorem entryAny_entryFinal (e : String × Structure × List Orientation) :
    entryAny diffractor reciprocal_radius with_direct_beam (entryFinal e) =
      entryAny diffractor reciprocal_radius with_direct_beam e := by
  unfold entryAny
  have h1 : (entryFinal e).2.2 = e.2.2 := rfl
  rw [h1]
  congr 1
  funext o
  exact retainedS_congr diffractor reciprocal_radius with_direct_beam _ _
    (rotatedStructure_entryFinal e) o

theorem entryPd_entryFinal (e : String × Structure × List Orientation) :
    entryPd diffractor sqrt0 calibration reciprocal_radius half_shape
        with_direct_beam (entryFinal e) =
      entryPd diffractor sqrt0 calibration reciprocal_radius half_shape
        with_direct_beam e := by
  unfold entryPd
  have h1 : (entryFinal e).2.2 = e.2.2 := rfl
  rw [h1]
  exact phaseFold_congr diffractor sqrt0 calibration reciprocal_radius half_shape
    with_direct_beam _ _ (rotatedStructure_entryFinal e) e.2.2 []

theorem entryFinal_idem (e : String × Structure × List Orientation) :
    entryFinal (entryFinal e) = entryFinal e := by
  have h2 : (entryFinal (entryFinal e)).2.1 = (entryFinal e).2.1 := by
    rw [entryFinal_struct (entryFinal e)]
    have h22 : (entryFinal e).2.2 = e.2.2 := rfl
    rw [h22]
    cases hgl : e.2.2.getLast? with
    | none => rfl
    | some o' =>
      show rotatedStructure (entryFinal e).2.1 o' = (entryFinal e).2.1
      rw [rotatedStructure_entryFinal e o']
      rw [entryFinal_struct e, hgl]
      rfl
  have h1 : (entryFinal (entryFinal e)).1 = (entryFinal e).1 := rfl
  have h3 : (entryFinal (entryFinal e)).2.2 = (entryFinal e).2.2 := rfl
  exact Prod.ext h1 (Prod.ext h2 h3)

theorem map_entryFinal_idem (entries : List (String × Structure × List Orientation)) :
    (entries.map entryFinal).map entryFinal = entries.map entryFinal := by
  rw [List.map_map]
  apply List.map_congr_left
  intro e _
  show entryFinal (entryFinal e) = entryFinal e
  exact entryFinal_idem e

theorem phasesFold_map_entryFinal
    (entries : List (String × Structure × List Orientation)) (lib : DiffDict) :
    phasesFold diffractor sqrt0 calibration reciprocal_radius half_shape
        with_direct_beam (entries.map entryFinal) lib =
      phasesFold diffractor sqrt0 calibration reciprocal_radius half_shape
        with_direct_beam entries lib := by
  induction entries generalizing lib with
  | nil => rfl
  | cons e rest ih =>
    rw [List.map_cons, phasesFold_cons, phasesFold_cons,
      entryAny_entryFinal diffractor reciprocal_radius with_direct_beam e,
      entryPd_entryFinal diffractor sqrt0 calibration reciprocal_radius half_shape
        with_direct_beam e]
    have h1 : (entryFinal e).1 = e.1 := rfl
    rw [h1]
    exact ih _

theorem run_idempotent (structure_library : StructureLibrary)
    (hok : isOkE (get_diffraction_library diffractor sqrt0 structure_library
      calibration reciprocal_radius half_shape with_direct_beam) = true) :
    get_diffraction_library diffractor sqrt0
        (okSl (get_diffraction_library diffractor sqrt0 structure_library
          calibration reciprocal_radius half_shape with_direct_beam))
        calibration reciprocal_radius half_shape with_direct_beam =
      get_diffraction_library diffractor sqrt0 structure_library calibration
        reciprocal_radius half_shape with_direct_beam := by
  have hall := (get_diffraction_library_isOk diffractor sqrt0 calibration
    reciprocal_radius half_shape with_direct_beam structure_library).mp hok
  rw [get_diffraction_library_eq diffractor sqrt0 calibration reciprocal_radius
    half_shape with_direct_beam structure_library hall]
  unfold okSl
  dsimp only
  have hall2 : ∀ e ∈ structure_library.struct_lib.map entryFinal, ∀ o ∈ e.2.2,
      simOk diffractor reciprocal_radius with_direct_beam e.2.1 o = true := by
    intro e' he' o ho
    rw [List.mem_map] at he'
    obtain ⟨e, he, rfl⟩ := he'
    have h22 : (entryFinal e).2.2 = e.2.2 := rfl
    rw [h22] at ho
    rw [simOk_entryFinal diffractor reciprocal_radius with_direct_beam e o]
    exact hall e he o ho
  have heq2 := get_diffraction_library_eq diffractor sqrt0 calibration
    reciprocal_radius half_shape with_direct_beam
    { structure_library with
        struct_lib := structure_library.struct_lib.map entryFinal }
    (by exact hall2)
  rw [heq2]
  dsimp only
  rw [phasesFold_map_entryFinal, map_entryFinal_idem]

end CongrLemmas

theorem get_vector_library_dict (reciprocal : Lattice → Lattice)
    (gps : Lattice → ℚ → List SpherePoint) (angle : Vec3 → Vec3 → ℚ)
    (structure_library : StructureLibrary) (reciprocal_radius : ℚ) :
    (get_vector_library reciprocal gps angle structure_library
        reciprocal_radius).dict =
      structure_library.struct_lib.foldl
        (fun d e =>
          dictInsert d e.1 (vval reciprocal gps angle reciprocal_radius e)) [] := rfl

/-- C5: both output libraries carry `identifiers` and `structures` attributes
copied through from the input structure library (reading the source's
misspelled `indentifiers` attribute) — for `get_diffraction_library` on every
input on which the build completes, and for `get_vector_library` always. -/
theorem C5_attributes {ε : Type}
    (diffractor : Structure → ℚ → Bool → Except ε SimData) (sqrt0 : ℚ → ℚ)
    (structure_library : StructureLibrary)
    (calibration reciprocal_radius : ℚ) (half_shape : ℚ × ℚ)
    (with_direct_beam : Bool)
    (reciprocal : Lattice → Lattice) (gps : Lattice → ℚ → List SpherePoint)
    (angle : Vec3 → Vec3 → ℚ) (radius2 : ℚ)
    (hok : isOkE (get_diffraction_library diffractor sqrt0 structure_library
      calibration reciprocal_radius half_shape with_direct_beam) = true) :
    (okLib (get_diffraction_library diffractor sqrt0 structure_library
        calibration reciprocal_radius half_shape with_direct_beam)).identifiers =
      structure_library.indentifiers ∧
    (okLib (get_diffraction_library diffractor sqrt0 structure_library
        calibration reciprocal_radius half_shape with_direct_beam)).structures =
      structure_library.structures ∧
    (get_vector_library reciprocal gps angle structure_library
        radius2).identifiers = structure_library.indentifiers ∧
    (get_vector_library reciprocal gps angle structure_library
        radius2).structures = structure_library.structures := by
  have hall := (get_diffraction_library_isOk diffractor sqrt0 calibration
    reciprocal_radius half_shape with_direct_beam structure_library).mp hok
  rw [get_diffraction_library_eq diffractor sqrt0 calibration reciprocal_radius
    half_shape with_direct_beam structure_library hall]
  exact ⟨rfl, rfl, rfl, rfl⟩

theorem C5_witness :
    (isOkE (get_diffraction_library exDiffractor exSqrt exSl 1 2 (2, 2) true) =
      true) ∧
    ((okLib (get_diffraction_library exDiffractor exSqrt exSl 1 2 (2, 2)
        true)).identifiers = exSl.indentifiers ∧
     (okLib (get_diffraction_library exDiffractor exSqrt exSl 1 2 (2, 2)
        true)).structures = exSl.structures ∧
     (get_vector_library exRecip exGps exAngle exSl 2).identifiers =
       exSl.indentifiers ∧
     (get_vector_library exRecip exGps exAngle exSl 2).structures =
       exSl.structures) :=
  ⟨rfl, C5_attributes exDiffractor exSqrt exSl 1 2 (2, 2) true exRecip exGps
    exAngle 2 rfl⟩

/-- C7: calling `get_diffraction_library` a second time, on the structure
library whose structure objects were mutated in place by a completed first
call, returns exactly the same result (same phase keys, orientation keys,
pixel coordinates and pattern norms — full equality of the output); the
mutation left every phase's six cell parameters unchanged, which is why the
re-read values match.  The simulator is deterministic by construction (a pure
function). -/
theorem C7_idempotent {ε : Type}
    (diffractor : Structure → ℚ → Bool → Except ε SimData) (sqrt0 : ℚ → ℚ)
    (structure_library : StructureLibrary)
    (calibration reciprocal_radius : ℚ) (half_shape : ℚ × ℚ)
    (with_direct_beam : Bool)
    (hok : isOkE (get_diffraction_library diffractor sqrt0 structure_library
      calibration reciprocal_radius half_shape with_direct_beam) = true) :
    get_diffraction_library diffractor sqrt0
        (okSl (get_diffraction_library diffractor sqrt0 structure_library
          calibration reciprocal_radius half_shape with_direct_beam))
        calibration reciprocal_radius half_shape with_direct_beam =
      get_diffraction_library diffractor sqrt0 structure_library calibration
        reciprocal_radius half_shape with_direct_beam ∧
    (okSl (get_diffraction_library diffractor sqrt0 structure_library
        calibration reciprocal_radius half_shape
        with_direct_beam)).struct_lib.map
        (fun e => (e.1, cellParams e.2.1.lattice, e.2.2)) =
      structure_library.struct_lib.map
        (fun e => (e.1, cellParams e.2.1.lattice, e.2.2)) := by
  constructor
  · exact run_idempotent diffractor sqrt0 calibration reciprocal_radius
      half_shape with_direct_beam structure_library hok
  · have hall := (get_diffraction_library_isOk diffractor sqrt0 calibration
      reciprocal_radius half_shape with_direct_beam structure_library).mp hok
    rw [get_diffraction_library_eq diffractor sqrt0 calibration
      reciprocal_radius half_shape with_direct_beam structure_library hall]
    dsimp only [okSl]
    rw [List.map_map]
    apply List.map_congr_left
    intro e _
    show ((entryFinal e).1, cellParams (entryFinal e).2.1.lattice,
      (entryFinal e).2.2) = (e.1, cellParams e.2.1.lattice, e.2.2)
    rw [cellParams_entryFinal]
    rfl

theorem C7_witness :
    (isOkE (get_diffraction_library exDiffractor exSqrt exSl 1 2 (2, 2) true) =
      true) ∧
    (get_diffraction_library exDiffractor exSqrt
        (okSl (get_diffraction_library exDiffractor exSqrt exSl 1 2 (2, 2)
          true)) 1 2 (2, 2) true =
      get_diffraction_library exDiffractor exSqrt exSl 1 2 (2, 2) true ∧
     (okSl (get_diffraction_library exDiffractor exSqrt exSl 1 2 (2, 2)
        true)).struct_lib.map (fun e => (e.1, cellParams e.2.1.lattice, e.2.2)) =
      exSl.struct_lib.map (fun e => (e.1, cellParams e.2.1.lattice, e.2.2))) :=
  ⟨rfl, C7_idempotent exDiffractor exSqrt exSl 1 2 (2, 2) true rfl⟩

/-- C8: the build succeeds iff every simulator call it makes succeeds; when
the simulator fails, `get_diffraction_library` returns exactly the failure the
simulator raised at some phase/orientation of the input — by the `Except`
return type nothing else is returned, so records accumulated for earlier
phases and orientations are discarded, and no retry happens. -/
theorem C8_failure {ε : Type}
    (diffractor : Structure → ℚ → Bool → Except ε SimData) (sqrt0 : ℚ → ℚ)
    (structure_library : StructureLibrary)
    (calibration reciprocal_radius : ℚ) (half_shape : ℚ × ℚ)
    (with_direct_beam : Bool) :
    (isOkE (get_diffraction_library diffractor sqrt0 structure_library
        calibration reciprocal_radius half_shape with_direct_beam) = true ↔
      ∀ e ∈ structure_library.struct_lib, ∀ o ∈ e.2.2,
        simOk diffractor reciprocal_radius with_direct_beam e.2.1 o = true) ∧
    (∀ err : ε,
      get_diffraction_library diffractor sqrt0 structure_library calibration
          reciprocal_radius half_shape with_direct_beam = Except.error err →
        ∃ en ∈ structure_library.struct_lib, ∃ o ∈ en.2.2,
          diffractor (rotatedStructure en.2.1 o) reciprocal_radius
            with_direct_beam = Except.error err) := by
  refine ⟨get_diffraction_library_isOk diffractor sqrt0 calibration
    reciprocal_radius half_shape with_direct_beam structure_library, ?_⟩
  intro err herr
  exact get_diffraction_library_error diffractor sqrt0 calibration
    reciprocal_radius half_shape with_direct_beam structure_library err herr

theorem C8_witness :
    (get_diffraction_library exFailD exSqrt exSl 1 2 (2, 2) true =
      Except.error 7) ∧
    (∃ en ∈ exSl.struct_lib, ∃ o ∈ en.2.2,
      exFailD (rotatedStructure en.2.1 o) 2 true = Except.error 7) :=
  ⟨rfl, (C8_failure exFailD exSqrt exSl 1 2 (2, 2) true).2 7 rfl⟩

/-- C2: every record stored in the output diffraction library has pixel
coordinates equal to the first two columns of its stored simulation's
calibrated coordinates shifted element-wise by `half_shape` and rounded to the
nearest integer by `np.rint` then cast to integer; in particular every stored
pixel coordinate is an integer (the coordinates have type ℤ). -/
theorem C2_pixel {ε : Type}
    (diffractor : Structure → ℚ → Bool → Except ε SimData) (sqrt0 : ℚ → ℚ)
    (structure_library : StructureLibrary)
    (calibration reciprocal_radius : ℚ) (half_shape : ℚ × ℚ)
    (with_direct_beam : Bool) (k : String) (o : Orientation) (r : SimRecord)
    (hok : isOkE (get_diffraction_library diffractor sqrt0 structure_library
      calibration reciprocal_radius half_shape with_direct_beam) = true)
    (hr : dictGet? (subdict (okLib (get_diffraction_library diffractor sqrt0
      structure_library calibration reciprocal_radius half_shape
      with_direct_beam)) k) o = some r) :
    r.pixel_coords =
      (r.Sim.calibrated_coordinates calibration).map
        (fun v => (rint (v.1 + half_shape.1), rint (v.2.1 + half_shape.2))) := by
  obtain ⟨s', o', hmk⟩ := record_in_library diffractor sqrt0 calibration
    reciprocal_radius half_shape with_direct_beam structure_library k o r hok hr
  subst hmk
  exact mkRecord_pixel sqrt0 calibration half_shape _

theorem C2_witness :
    (isOkE (get_diffraction_library exDiffractor exSqrt exSl 1 2 (2, 2) true) =
      true) ∧
    (dictGet? (subdict (okLib (get_diffraction_library exDiffractor exSqrt exSl
        1 2 (2, 2) true)) "A") (0, 0, 0) =
      some (mkRecord exSqrt 1 (2, 2)
        (simValS exDiffractor 2 true exStruct (0, 0, 0)))) ∧
    ((mkRecord exSqrt 1 (2, 2)
        (simValS exDiffractor 2 true exStruct (0, 0, 0))).pixel_coords =
      ((mkRecord exSqrt 1 (2, 2)
          (simValS exDiffractor 2 true exStruct (0, 0, 0))).Sim.calibrated_coordinates
          1).map (fun v => (rint (v.1 + 2), rint (v.2.1 + 2)))) :=
  ⟨rfl, rfl,
    C2_pixel exDiffractor exSqrt exSl 1 2 (2, 2) true "A" (0, 0, 0) _ rfl rfl⟩

/-- C4: every record stored in the output diffraction library has
`pattern_norm` equal to the square root of the dot product of its stored
intensities vector with itself — the Euclidean norm of the stored
intensities (`np.sqrt` abstracted as the `sqrt0` parameter). -/
theorem C4_norm {ε : Type}
    (diffractor : Structure → ℚ → Bool → Except ε SimData) (sqrt0 : ℚ → ℚ)
    (structure_library : StructureLibrary)
    (calibration reciprocal_radius : ℚ) (half_shape : ℚ × ℚ)
    (with_direct_beam : Bool) (k : String) (o : Orientation) (r : SimRecord)
    (hok : isOkE (get_diffraction_library diffractor sqrt0 structure_library
      calibration reciprocal_radius half_shape with_direct_beam) = true)
    (hr : dictGet? (subdict (okLib (get_diffraction_library diffractor sqrt0
      structure_library calibration reciprocal_radius half_shape
      with_direct_beam)) k) o = some r) :
    r.pattern_norm = sqrt0 (dot r.intensities r.intensities) := by
  obtain ⟨s', o', hmk⟩ := record_in_library diffractor sqrt0 calibration
    reciprocal_radius half_shape with_direct_beam structure_library k o r hok hr
  subst hmk
  exact mkRecord_norm sqrt0 calibration half_shape _

theorem C4_witness :
    (isOkE (get_diffraction_library exDiffractor exSqrt exSl 1 2 (2, 2) true) =
      true) ∧
    (dictGet? (subdict (okLib (get_diffraction_library exDiffractor exSqrt exSl
        1 2 (2, 2) true)) "A") (0, 0, 0) =
      some (mkRecord exSqrt 1 (2, 2)
        (simValS exDiffractor 2 true exStruct (0, 0, 0)))) ∧
    ((mkRecord exSqrt 1 (2, 2)
        (simValS exDiffractor 2 true exStruct (0, 0, 0))).pattern_norm =
      exSqrt (dot (mkRecord exSqrt 1 (2, 2)
          (simValS exDiffractor 2 true exStruct (0, 0, 0))).intensities
        (mkRecord exSqrt 1 (2, 2)
          (simValS exDiffractor 2 true exStruct (0, 0, 0))).intensities)) :=
  ⟨rfl, rfl,
    C4_norm exDiffractor exSqrt exSl 1 2 (2, 2) true "A" (0, 0, 0) _ rfl rfl⟩

section ClaimLemmas

variable {ε : Type}
variable (diffractor : Structure → ℚ → Bool → Except ε SimData)
variable (sqrt0 : ℚ → ℚ)
variable (calibration reciprocal_radius : ℚ)
variable (half_shape : ℚ × ℚ)
variable (with_direct_beam : Bool)

theorem mem_keys_entryPd (k : String) (s : Structure) (os : List Orientation)
    (o : Orientation) :
    o ∈ dictKeys (entryPd diffractor sqrt0 calibration reciprocal_radius
        half_shape with_direct_beam (k, s, os)) ↔
      o ∈ os ∧ retainedS diffractor reciprocal_radius with_direct_beam s o = true := by
  unfold entryPd
  dsimp only
  rw [mem_dictKeys_iff_isSome]
  rw [dictGet?_phaseFold diffractor sqrt0 calibration reciprocal_radius
    half_shape with_direct_beam s os [] o]
  by_cases hco : o ∈ os ∧
      retainedS diffractor reciprocal_radius with_direct_beam s o = true
  · rw [if_pos hco]
    simp [hco]
  · rw [if_neg hco]
    have hnone : dictGet? ([] : PhaseDict) o = none := rfl
    rw [hnone]
    simp [hco]

end ClaimLemmas

/-- C1: in the built DiffractionLibrary, an orientation triple is a key of a
phase's sub-mapping iff the simulator's intensities vector for that phase and
orientation is non-empty, and the phase key itself is present iff at least one
of the phase's orientations was retained; a phase whose every orientation
yields zero reflections is simply absent, with no error (the build completed
by hypothesis). -/
theorem C1_retention {ε : Type}
    (diffractor : Structure → ℚ → Bool → Except ε SimData) (sqrt0 : ℚ → ℚ)
    (structure_library : StructureLibrary)
    (calibration reciprocal_radius : ℚ) (half_shape : ℚ × ℚ)
    (with_direct_beam : Bool) (k : String) (s : Structure)
    (os : List Orientation)
    (hnd : (structure_library.struct_lib.map Prod.fst).Nodup)
    (hok : isOkE (get_diffraction_library diffractor sqrt0 structure_library
      calibration reciprocal_radius half_shape with_direct_beam) = true)
    (hmem : (k, s, os) ∈ structure_library.struct_lib) :
    (∀ o : Orientation,
      o ∈ dictKeys (subdict (okLib (get_diffraction_library diffractor sqrt0
          structure_library calibration reciprocal_radius half_shape
          with_direct_beam)) k) ↔
        o ∈ os ∧ (simValS diffractor reciprocal_radius with_direct_beam s
          o).intensities ≠ []) ∧
    (k ∈ dictKeys (okLib (get_diffraction_library diffractor sqrt0
        structure_library calibration reciprocal_radius half_shape
        with_direct_beam)).dict ↔
      ∃ o ∈ os, (simValS diffractor reciprocal_radius with_direct_beam s
        o).intensities ≠ []) := by
  have hall := (get_diffraction_library_isOk diffractor sqrt0 calibration
    reciprocal_radius half_shape with_direct_beam structure_library).mp hok
  rw [get_diffraction_library_eq diffractor sqrt0 calibration reciprocal_radius
    half_shape with_direct_beam structure_library hall]
  dsimp only [okLib]
  constructor
  · intro o
    unfold subdict
    dsimp only
    rw [dictGet?_phasesFold diffractor sqrt0 calibration reciprocal_radius
      half_shape with_direct_beam structure_library.struct_lib [] k s os hnd hmem]
    by_cases hany : entryAny diffractor reciprocal_radius with_direct_beam
        (k, s, os) = true
    · rw [if_pos hany, Option.getD_some]
      rw [mem_keys_entryPd diffractor sqrt0 calibration reciprocal_radius
        half_shape with_direct_beam k s os o]
      rw [retainedS_iff diffractor reciprocal_radius with_direct_beam s o]
    · rw [if_neg hany]
      have hnone : dictGet? ([] : DiffDict) k = none := rfl
      rw [hnone, Option.getD_none]
      constructor
      · intro hmem2
        exact absurd hmem2 (by simp [dictKeys])
      · rintro ⟨h1, h2⟩
        exact absurd
          ((entryAny_eq_true_iff diffractor reciprocal_radius with_direct_beam
            k s os).mpr
            ⟨o, h1, (retainedS_iff diffractor reciprocal_radius
              with_direct_beam s o).mpr h2⟩) hany
  · rw [mem_dictKeys_phasesFold]
    constructor
    · rintro (hmem2 | ⟨e', he', h1, h2⟩)
      · exact absurd hmem2 (by simp [dictKeys])
      · have he : e' = (k, s, os) :=
          entry_unique structure_library.struct_lib hnd he' hmem h1
        rw [he] at h2
        obtain ⟨o, ho, hret⟩ :=
          (entryAny_eq_true_iff diffractor reciprocal_radius with_direct_beam
            k s os).mp h2
        exact ⟨o, ho, (retainedS_iff diffractor reciprocal_radius
          with_direct_beam s o).mp hret⟩
    · rintro ⟨o, ho, hne⟩
      exact Or.inr ⟨(k, s, os), hmem, rfl,
        (entryAny_eq_true_iff diffractor reciprocal_radius with_direct_beam
          k s os).mpr
          ⟨o, ho, (retainedS_iff diffractor reciprocal_radius with_direct_beam
            s o).mpr hne⟩⟩

theorem C1_witness :
    ((exSl.struct_lib.map Prod.fst).Nodup) ∧
    (isOkE (get_diffraction_library exDiffractor exSqrt exSl 1 2 (2, 2) true) =
      true) ∧
    (("B", exStructB, [((10 : ℚ), (0 : ℚ), (0 : ℚ))]) ∈ exSl.struct_lib) ∧
    ((∀ o : Orientation,
      o ∈ dictKeys (subdict (okLib (get_diffraction_library exDiffractor exSqrt
          exSl 1 2 (2, 2) true)) "B") ↔
        o ∈ [((10 : ℚ), (0 : ℚ), (0 : ℚ))] ∧
          (simValS exDiffractor 2 true exStructB o).intensities ≠ []) ∧
     ("B" ∈ dictKeys (okLib (get_diffraction_library exDiffractor exSqrt exSl
        1 2 (2, 2) true)).dict ↔
      ∃ o ∈ [((10 : ℚ), (0 : ℚ), (0 : ℚ))],
        (simValS exDiffractor 2 true exStructB o).intensities ≠ [])) :=
  ⟨by decide, rfl, by decide,
    C1_retention exDiffractor exSqrt exSl 1 2 (2, 2) true "B" exStructB
      [((10 : ℚ), (0 : ℚ), (0 : ℚ))] (by decide) rfl (by decide)⟩

/-- C6: orientation keys within a phase's sub-mapping are unique, and the
record stored under an orientation key is the one written at the last retained
occurrence of that triple in the phase's orientation list (Python dict
assignment: last write wins), expressed by looking the key up in the reversed
list of retained occurrences. -/
theorem C6_lastwins {ε : Type}
    (diffractor : Structure → ℚ → Bool → Except ε SimData) (sqrt0 : ℚ → ℚ)
    (structure_library : StructureLibrary)
    (calibration reciprocal_radius : ℚ) (half_shape : ℚ × ℚ)
    (with_direct_beam : Bool) (k : String) (s : Structure)
    (os : List Orientation)
    (hnd : (structure_library.struct_lib.map Prod.fst).Nodup)
    (hok : isOkE (get_diffraction_library diffractor sqrt0 structure_library
      calibration reciprocal_radius half_shape with_direct_beam) = true)
    (hmem : (k, s, os) ∈ structure_library.struct_lib) :
    (dictKeys (subdict (okLib (get_diffraction_library diffractor sqrt0
      structure_library calibration reciprocal_radius half_shape
      with_direct_beam)) k)).Nodup ∧
    (∀ o : Orientation,
      dictGet? (subdict (okLib (get_diffraction_library diffractor sqrt0
          structure_library calibration reciprocal_radius half_shape
          with_direct_beam)) k) o =
        (((os.filter (fun o' => retainedS diffractor reciprocal_radius
            with_direct_beam s o')).reverse.find?
              (fun o' => decide (o' = o))).map
          (fun o' => mkRecord sqrt0 calibration half_shape
            (simValS diffractor reciprocal_radius with_direct_beam s o')))) := by
  have hall := (get_diffraction_library_isOk diffractor sqrt0 calibration
    reciprocal_radius half_shape with_direct_beam structure_library).mp hok
  rw [get_diffraction_library_eq diffractor sqrt0 calibration reciprocal_radius
    half_shape with_direct_beam structure_library hall]
  dsimp only [okLib]
  unfold subdict
  dsimp only
  rw [dictGet?_phasesFold diffractor sqrt0 calibration reciprocal_radius
    half_shape with_direct_beam structure_library.struct_lib [] k s os hnd hmem]
  by_cases hany : entryAny diffractor reciprocal_radius with_direct_beam
      (k, s, os) = true
  · rw [if_pos hany, Option.getD_some]
    constructor
    · unfold entryPd
      dsimp only
      exact phaseFold_keys_nodup diffractor sqrt0 calibration reciprocal_radius
        half_shape with_direct_beam s os [] List.nodup_nil
    · intro o
      unfold entryPd
      dsimp only
      rw [dictGet?_phaseFold diffractor sqrt0 calibration reciprocal_radius
        half_shape with_direct_beam s os [] o]
      cases hf : ((os.filter (fun o' => retainedS diffractor reciprocal_radius
          with_direct_beam s o')).reverse.find? (fun o' => decide (o' = o))) with
      | some o2 =>
        have ho2 : o2 = o :=
          of_decide_eq_true (@List.find?_some _ (fun o' => decide (o' = o)) o2 _ hf)
        subst ho2
        have hm := List.mem_of_find?_eq_some hf
        rw [List.mem_reverse, List.mem_filter] at hm
        rw [if_pos hm]
        rfl
      | none =>
        have hno := List.find?_eq_none.mp hf
        have hnc : ¬ (o ∈ os ∧ retainedS diffractor reciprocal_radius
            with_direct_beam s o = true) := by
          rintro ⟨h1, h2⟩
          have hmem3 : o ∈ (os.filter (fun o' => retainedS diffractor
              reciprocal_radius with_direct_beam s o')).reverse := by
            rw [List.mem_reverse, List.mem_filter]
            exact ⟨h1, h2⟩
          exact (hno o hmem3) (decide_eq_true rfl)
        rw [if_neg hnc]
        rfl
  · rw [if_neg hany]
    have hnone : dictGet? ([] : DiffDict) k = none := rfl
    rw [hnone, Option.getD_none]
    have hfe : os.filter (fun o' => retainedS diffractor reciprocal_radius
        with_direct_beam s o') = [] := by
      by_contra hne
      obtain ⟨x, hx⟩ := List.exists_mem_of_ne_nil _ hne
      rw [List.mem_filter] at hx
      exact hany ((entryAny_eq_true_iff diffractor reciprocal_radius
        with_direct_beam k s os).mpr ⟨x, hx.1, hx.2⟩)
    constructor
    · exact List.nodup_nil
    · intro o
      rw [hfe]
      rfl

theorem C6_witness :
    ((exSl.struct_lib.map Prod.fst).Nodup) ∧
    (isOkE (get_diffraction_library exDiffractor exSqrt exSl 1 2 (2, 2) true) =
      true) ∧
    (("A", exStruct,
      [((0 : ℚ), (0 : ℚ), (0 : ℚ)), ((10 : ℚ), (0 : ℚ), (0 : ℚ)),
       ((0 : ℚ), (0 : ℚ), (0 : ℚ))]) ∈ exSl.struct_lib) ∧
    ((dictKeys (subdict (okLib (get_diffraction_library exDiffractor exSqrt
        exSl 1 2 (2, 2) true)) "A")).Nodup ∧
     (∀ o : Orientation,
       dictGet? (subdict (okLib (get_diffraction_library exDiffractor exSqrt
           exSl 1 2 (2, 2) true)) "A") o =
         ((([((0 : ℚ), (0 : ℚ), (0 : ℚ)), ((10 : ℚ), (0 : ℚ), (0 : ℚ)),
             ((0 : ℚ), (0 : ℚ), (0 : ℚ))].filter
              (fun o' => retainedS exDiffractor 2 true exStruct o')).reverse.find?
                (fun o' => decide (o' = o))).map
           (fun o' => mkRecord exSqrt 1 (2, 2)
             (simValS exDiffractor 2 true exStruct o'))))) :=
  ⟨by decide, rfl, by decide,
    C6_lastwins exDiffractor exSqrt exSl 1 2 (2, 2) true "A" exStruct
      [((0 : ℚ), (0 : ℚ), (0 : ℚ)), ((10 : ℚ), (0 : ℚ), (0 : ℚ)),
       ((0 : ℚ), (0 : ℚ), (0 : ℚ))] (by decide) rfl (by decide)⟩

/-- C10: during a completed build, each phase's six cell parameters are read
from the phase's input structure and every rotated lattice is built from those
same six values — every retained record equals the record computed from the
simulator applied to the input structure's cell parameters rotated by its
orientation; after the call the phase's structure holds the lattice built for
the last orientation of its list (unchanged if the list is empty), with its
cell parameters unchanged. -/
theorem C10_frame {ε : Type}
    (diffractor : Structure → ℚ → Bool → Except ε SimData) (sqrt0 : ℚ → ℚ)
    (structure_library : StructureLibrary)
    (calibration reciprocal_radius : ℚ) (half_shape : ℚ × ℚ)
    (with_direct_beam : Bool)
    (hnd : (structure_library.struct_lib.map Prod.fst).Nodup)
    (hok : isOkE (get_diffraction_library diffractor sqrt0 structure_library
      calibration reciprocal_radius half_shape with_direct_beam) = true) :
    ((okSl (get_diffraction_library diffractor sqrt0 structure_library
        calibration reciprocal_radius half_shape
        with_direct_beam)).struct_lib =
      structure_library.struct_lib.map
        (fun e => (e.1, e.2.2.getLast?.elim e.2.1 (rotatedStructure e.2.1),
          e.2.2))) ∧
    ((okSl (get_diffraction_library diffractor sqrt0 structure_library
        calibration reciprocal_radius half_shape
        with_direct_beam)).struct_lib.map
        (fun e => (e.1, cellParams e.2.1.lattice, e.2.2)) =
      structure_library.struct_lib.map
        (fun e => (e.1, cellParams e.2.1.lattice, e.2.2))) ∧
    (∀ k : String, ∀ s : Structure, ∀ os : List Orientation,
      (k, s, os) ∈ structure_library.struct_lib → ∀ o ∈ os,
        retainedS diffractor reciprocal_radius with_direct_beam s o = true →
          dictGet? (subdict (okLib (get_diffraction_library diffractor sqrt0
              structure_library calibration reciprocal_radius half_shape
              with_direct_beam)) k) o =
            some (mkRecord sqrt0 calibration half_shape
              (simValS diffractor reciprocal_radius with_direct_beam s o))) := by
  have hall := (get_diffraction_library_isOk diffractor sqrt0 calibration
    reciprocal_radius half_shape with_direct_beam structure_library).mp hok
  rw [get_diffraction_library_eq diffractor sqrt0 calibration reciprocal_radius
    half_shape with_direct_beam structure_library hall]
  dsimp only [okSl, okLib]
  refine ⟨?_, ?_, ?_⟩
  · apply List.map_congr_left
    intro e _
    show entryFinal e = _
    have h2 := entryFinal_struct e
    have h1 : (entryFinal e).1 = e.1 := rfl
    have h3 : (entryFinal e).2.2 = e.2.2 := rfl
    exact Prod.ext h1 (Prod.ext h2 h3)
  · rw [List.map_map]
    apply List.map_congr_left
    intro e _
    show ((entryFinal e).1, cellParams (entryFinal e).2.1.lattice,
      (entryFinal e).2.2) = (e.1, cellParams e.2.1.lattice, e.2.2)
    rw [cellParams_entryFinal]
    rfl
  · intro k s os hmem o ho hret
    unfold subdict
    dsimp only
    rw [dictGet?_phasesFold diffractor sqrt0 calibration reciprocal_radius
      half_shape with_direct_beam structure_library.struct_lib [] k s os hnd hmem]
    rw [if_pos ((entryAny_eq_true_iff diffractor reciprocal_radius
      with_direct_beam k s os).mpr ⟨o, ho, hret⟩)]
    rw [Option.getD_some]
    unfold entryPd
    dsimp only
    rw [dictGet?_phaseFold diffractor sqrt0 calibration reciprocal_radius
      half_shape with_direct_beam s os [] o]
    rw [if_pos ⟨ho, hret⟩]

theorem C10_witness :
    ((exSl.struct_lib.map Prod.fst).Nodup) ∧
    (isOkE (get_diffraction_library exDiffractor exSqrt exSl 1 2 (2, 2) true) =
      true) ∧
    (((okSl (get_diffraction_library exDiffractor exSqrt exSl 1 2 (2, 2)
        true)).struct_lib =
      exSl.struct_lib.map
        (fun e => (e.1, e.2.2.getLast?.elim e.2.1 (rotatedStructure e.2.1),
          e.2.2))) ∧
     ((okSl (get_diffraction_library exDiffractor exSqrt exSl 1 2 (2, 2)
        true)).struct_lib.map
          (fun e => (e.1, cellParams e.2.1.lattice, e.2.2)) =
       exSl.struct_lib.map (fun e => (e.1, cellParams e.2.1.lattice, e.2.2))) ∧
     (∀ k : String, ∀ s : Structure, ∀ os : List Orientation,
       (k, s, os) ∈ exSl.struct_lib → ∀ o ∈ os,
         retainedS exDiffractor 2 true s o = true →
           dictGet? (subdict (okLib (get_diffraction_library exDiffractor
               exSqrt exSl 1 2 (2, 2) true)) k) o =
             some (mkRecord exSqrt 1 (2, 2)
               (simValS exDiffractor 2 true s o)))) :=
  ⟨by decide, rfl,
    C10_frame exDiffractor exSqrt exSl 1 2 (2, 2) true (by decide) rfl⟩

/-- C3: for each phase, with n the number of points enumerated by the
points-in-sphere helper, `get_vector_library` stores exactly the records of
the index pairs (i, j) with i < j < n, in lexicographic order by enumeration
index, each of the form (hkl_i, hkl_j, dist_i, dist_j, angle(coord_i,
coord_j)); there are n*(n-1)/2 of them, with no self-pairs and no repeated
pairs, and for n < 2 the phase's record array is empty. -/
theorem C3_pairs (reciprocal : Lattice → Lattice)
    (get_points_in_sphere : Lattice → ℚ → List SpherePoint)
    (get_angle_cartesian : Vec3 → Vec3 → ℚ)
    (structure_library : StructureLibrary) (reciprocal_radius : ℚ)
    (k : String) (s : Structure) (os : List Orientation)
    (pts : List SpherePoint)
    (hnd : (structure_library.struct_lib.map Prod.fst).Nodup)
    (hmem : (k, s, os) ∈ structure_library.struct_lib)
    (hpts : pts = get_points_in_sphere (reciprocal s.lattice) reciprocal_radius) :
    dictGet? (get_vector_library reciprocal get_points_in_sphere
        get_angle_cartesian structure_library reciprocal_radius).dict k =
      some ((combinations2 pts.length).map
        (fun ij => pairRecord get_angle_cartesian pts ij.1 ij.2)) ∧
    (combinations2 pts.length).length = pts.length * (pts.length - 1) / 2 ∧
    (∀ p ∈ combinations2 pts.length, p.1 < p.2 ∧ p.2 < pts.length) ∧
    List.Pairwise (fun p q : Nat × Nat => p.1 < q.1 ∨ (p.1 = q.1 ∧ p.2 < q.2))
      (combinations2 pts.length) ∧
    (combinations2 pts.length).Nodup ∧
    (pts.length < 2 →
      (combinations2 pts.length).map
        (fun ij => pairRecord get_angle_cartesian pts ij.1 ij.2) = []) := by
  subst hpts
  refine ⟨?_, ?_, mem_combinations2 _, pairwise_combinations2 _,
    nodup_combinations2 _, ?_⟩
  · rw [get_vector_library_dict]
    exact dictGet?_foldl_insert Prod.fst
      (vval reciprocal get_points_in_sphere get_angle_cartesian
        reciprocal_radius)
      structure_library.struct_lib [] (k, s, os) hnd hmem
  · have h2 := length_combinations2 (get_points_in_sphere
      (reciprocal s.lattice) reciprocal_radius).length
    omega
  · intro hlt
    rw [combinations2_small _ hlt]
    rfl

theorem C3_witness :
    ((exSl.struct_lib.map Prod.fst).Nodup) ∧
    (("A", exStruct,
      [((0 : ℚ), (0 : ℚ), (0 : ℚ)), ((10 : ℚ), (0 : ℚ), (0 : ℚ)),
       ((0 : ℚ), (0 : ℚ), (0 : ℚ))]) ∈ exSl.struct_lib) ∧
    (exPts = exGps (exRecip exStruct.lattice) 2) ∧
    (dictGet? (get_vector_library exRecip exGps exAngle exSl 2).dict "A" =
      some ((combinations2 exPts.length).map
        (fun ij => pairRecord exAngle exPts ij.1 ij.2)) ∧
     (combinations2 exPts.length).length =
       exPts.length * (exPts.length - 1) / 2 ∧
     (∀ p ∈ combinations2 exPts.length, p.1 < p.2 ∧ p.2 < exPts.length) ∧
     List.Pairwise (fun p q : Nat × Nat => p.1 < q.1 ∨ (p.1 = q.1 ∧ p.2 < q.2))
       (combinations2 exPts.length) ∧
     (combinations2 exPts.length).Nodup ∧
     (exPts.length < 2 →
       (combinations2 exPts.length).map
         (fun ij => pairRecord exAngle exPts ij.1 ij.2) = [])) :=
  ⟨by decide, by decide, rfl,
    C3_pairs exRecip exGps exAngle exSl 2 "A" exStruct
      [((0 : ℚ), (0 : ℚ), (0 : ℚ)), ((10 : ℚ), (0 : ℚ), (0 : ℚ)),
       ((0 : ℚ), (0 : ℚ), (0 : ℚ))] exPts (by decide) (by decide) rfl⟩

/-- C9: the DiffractionVectorLibrary has exactly the same phase keys, in the
same order, as the input structure library — including phases whose
enumerated point count is below 2, which map to an empty record array — which
is stronger than the at-most containment the spec states for output
libraries. -/
theorem C9_keys (reciprocal : Lattice → Lattice)
    (get_points_in_sphere : Lattice → ℚ → List SpherePoint)
    (get_angle_cartesian : Vec3 → Vec3 → ℚ)
    (structure_library : StructureLibrary) (reciprocal_radius : ℚ)
    (hnd : (structure_library.struct_lib.map Prod.fst).Nodup) :
    (get_vector_library reciprocal get_points_in_sphere get_angle_cartesian
        structure_library reciprocal_radius).dict.map Prod.fst =
      structure_library.struct_lib.map Prod.fst ∧
    (∀ e ∈ structure_library.struct_lib,
      (get_points_in_sphere (reciprocal e.2.1.lattice)
          reciprocal_radius).length < 2 →
        dictGet? (get_vector_library reciprocal get_points_in_sphere
            get_angle_cartesian structure_library reciprocal_radius).dict e.1 =
          some []) := by
  constructor
  · show dictKeys (get_vector_library reciprocal get_points_in_sphere
      get_angle_cartesian structure_library reciprocal_radius).dict = _
    rw [get_vector_library_dict]
    rw [dictKeys_foldl_insert Prod.fst
      (vval reciprocal get_points_in_sphere get_angle_cartesian
        reciprocal_radius)
      structure_library.struct_lib [] hnd (by intro y _ hy; simp [dictKeys] at hy)]
    rfl
  · intro e he hlt
    rw [get_vector_library_dict]
    have h1 := dictGet?_foldl_insert Prod.fst
      (vval reciprocal get_points_in_sphere get_angle_cartesian
        reciprocal_radius)
      structure_library.struct_lib [] e hnd he
    rw [h1]
    unfold vval
    rw [combinations2_small _ hlt]
    rfl

theorem C9_witness :
    ((exSl.struct_lib.map Prod.fst).Nodup) ∧
    ((get_vector_library exRecip exGps exAngle exSl 2).dict.map Prod.fst =
       exSl.struct_lib.map Prod.fst ∧
     (∀ e ∈ exSl.struct_lib,
       (exGps (exRecip e.2.1.lattice) 2).length < 2 →
         dictGet? (get_vector_library exRecip exGps exAngle exSl 2).dict e.1 =
           some [])) :=
  ⟨by decide, C9_keys exRecip exGps exAngle exSl 2 (by decide)⟩

end Pyxem
